import Mathlib

/-!
Shallow embedding of the neuro_draw core (src/src/utils/physicsSimulation.ts):
the Physics Engine (mass-spring-damper particle system, `PhysicsSimulation`)
and the Growth Engine (`generateBranches` / `animateBranches`).

Modelling conventions:
* JavaScript numbers are modelled as rationals `ℚ`; the transcendental
  library calls (`Math.sqrt`, `Math.cos`, `Math.sin`, `Math.atan2`, `Math.PI`)
  are passed in as an explicit `MathOracle`, so every definition stays
  computable and the arithmetic structure of the source is preserved exactly.
* `Math.random()` is modelled as a stream `Rng` (a function `ℕ → ℚ` plus a
  cursor); each call to the JS RNG consumes one stream element, in the exact
  evaluation order of the source.
* `Date.now()` is a parameter `now`.
* Array accesses that would yield `undefined` in JS (and make the following
  field access throw a `TypeError`) are modelled with `Option`: a step that
  would throw returns `none`.
* Point indices are natural numbers (they are produced by `addPoint`).
-/

namespace NeuroDraw

/-- Oracle for the `Math` library functions used by the source. -/
structure MathOracle where
  sqrt : ℚ → ℚ
  cos : ℚ → ℚ
  sin : ℚ → ℚ
  atan2 : ℚ → ℚ → ℚ
  pi : ℚ

/-- Stream of `Math.random()` results: `f` gives the value of the `k`-th call. -/
structure Rng where
  f : ℕ → ℚ
  k : ℕ

/-- Consume one `Math.random()` call. -/
def Rng.next (g : Rng) : ℚ × Rng := (g.f g.k, { g with k := g.k + 1 })

/-- Truncation toward zero, as JavaScript's implicit `trunc` in `%`. -/
def jsTrunc (q : ℚ) : ℤ := if 0 ≤ q then ⌊q⌋ else ⌈q⌉

/-- JavaScript's `%` operator on numbers (remainder with dividend's sign). -/
def jsMod (a b : ℚ) : ℚ := a - b * (jsTrunc (a / b) : ℚ)

/-! ## Physics Engine data model (source lines 1–34) -/

structure PhysicsPoint where
  x : ℚ
  y : ℚ
  vx : ℚ
  vy : ℚ
  ax : ℚ
  ay : ℚ
  mass : ℚ
  fixed : Bool
deriving DecidableEq

structure PhysicsSpring where
  point1 : ℕ
  point2 : ℕ
  restLength : ℚ
  stiffness : ℚ
  damping : ℚ
deriving DecidableEq

inductive ConstraintType where
  | distance
  | angle
deriving DecidableEq

structure PhysicsConstraint where
  ctype : ConstraintType
  points : List ℕ
  targetValue : ℚ
  strength : ℚ
deriving DecidableEq

/-- The private state of the `PhysicsSimulation` class. -/
structure PhysicsState where
  points : List PhysicsPoint
  springs : List PhysicsSpring
  constraints : List PhysicsConstraint
  wind : ℚ × ℚ
  gravity : ℚ
  canvasWidth : ℚ
  canvasHeight : ℚ
deriving DecidableEq

/-- `addPoint(x, y, mass, fixed)`: returns the new index (source lines 50–60). -/
def addPoint (s : PhysicsState) (x y mass : ℚ) (fixed : Bool) : ℕ × PhysicsState :=
  (s.points.length,
   { s with points := s.points ++ [{ x := x, y := y, vx := 0, vy := 0, ax := 0, ay := 0,
                                     mass := mass, fixed := fixed }] })

/-- `addSpring(point1, point2, stiffness, damping)` (source lines 62–78):
no-op when either index is `>= points.length`; the rest length is the
current distance between the two points. -/
def addSpring (orc : MathOracle) (s : PhysicsState) (point1 point2 : ℕ)
    (stiffness damping : ℚ) : PhysicsState :=
  if s.points.length ≤ point1 ∨ s.points.length ≤ point2 then s
  else
    match s.points[point1]?, s.points[point2]? with
    | some p1, some p2 =>
      let restLength := orc.sqrt ((p2.x - p1.x) * (p2.x - p1.x) + (p2.y - p1.y) * (p2.y - p1.y))
      let sp : PhysicsSpring :=
        { point1 := point1, point2 := point2, restLength := restLength,
          stiffness := stiffness, damping := damping }
      { s with springs := s.springs ++ [sp] }
    | _, _ => s

/-- `addDistanceConstraint(point1, point2, distance, strength)` (source lines 80–87):
the constraint is stored with NO validation of the indices. -/
def addDistanceConstraint (s : PhysicsState) (point1 point2 : ℕ)
    (distance strength : ℚ) : PhysicsState :=
  let c : PhysicsConstraint :=
    { ctype := .distance, points := [point1, point2],
      targetValue := distance, strength := strength }
  { s with constraints := s.constraints ++ [c] }

/-! ## `update(deltaTime)` (source lines 107–274), phase by phase -/

/-- Reset accelerations (source lines 109–112). -/
def resetAccel (p : PhysicsPoint) : PhysicsPoint := { p with ax := 0, ay := 0 }

/-- Gravity pass (source lines 115–121). -/
def gravityPass (gravity : ℚ) (pts : List PhysicsPoint) : List PhysicsPoint :=
  if 0 < gravity then
    pts.map (fun p => if p.fixed then p else { p with ay := p.ay + gravity * p.mass })
  else pts

/-- Wind pass (source lines 124–136): drag proportional to velocity difference,
coefficient `windForce = 0.1`. -/
def windPass (wx wy : ℚ) (pts : List PhysicsPoint) : List PhysicsPoint :=
  if wx ≠ 0 ∨ wy ≠ 0 then
    pts.map (fun p => if p.fixed then p
      else { p with ax := p.ax + (wx - p.vx) * (1/10), ay := p.ay + (wy - p.vy) * (1/10) })
  else pts

/-- One spring of the spring pass (source lines 139–177).  A reference to a
nonexistent point makes the JS code throw (`undefined.x`): modelled as `none`.
The damping term uses the FULL relative velocity vector (`dvx`, `dvy`), with the
fixed coefficient `0.05`, and is not divided by the mass. -/
def springStep (orc : MathOracle) (pts : List PhysicsPoint) (sp : PhysicsSpring) :
    Option (List PhysicsPoint) :=
  match pts[sp.point1]?, pts[sp.point2]? with
  | some p1, some p2 =>
    let dx := p2.x - p1.x
    let dy := p2.y - p1.y
    let dist := orc.sqrt (dx * dx + dy * dy)
    if 0 < dist then
      let force := (dist - sp.restLength) * sp.stiffness
      let fx := dx / dist * force
      let fy := dy / dist * force
      let p1a := if p1.fixed then p1 else
        { p1 with ax := p1.ax + fx / p1.mass, ay := p1.ay + fy / p1.mass }
      let p2a := if p2.fixed then p2 else
        { p2 with ax := p2.ax - fx / p2.mass, ay := p2.ay - fy / p2.mass }
      let dvx := p2.vx - p1.vx
      let dvy := p2.vy - p1.vy
      let p1b := if p1.fixed then p1a else
        { p1a with ax := p1a.ax + dvx * (1/20), ay := p1a.ay + dvy * (1/20) }
      let p2b := if p2.fixed then p2a else
        { p2a with ax := p2a.ax - dvx * (1/20), ay := p2a.ay - dvy * (1/20) }
      some ((pts.set sp.point1 p1b).set sp.point2 p2b)
    else some pts
  | _, _ => none

/-- All springs (source lines 139–177). -/
def springsPass (orc : MathOracle) (springs : List PhysicsSpring)
    (pts : List PhysicsPoint) : Option (List PhysicsPoint) :=
  List.foldlM (springStep orc) pts springs

/-- One unordered pair of the collision pass (source lines 182–205). -/
def collidePair (orc : MathOracle) (pts : List PhysicsPoint) (i j : ℕ) :
    List PhysicsPoint :=
  match pts[i]?, pts[j]? with
  | some p1, some p2 =>
    let dx := p2.x - p1.x
    let dy := p2.y - p1.y
    let dist := orc.sqrt (dx * dx + dy * dy)
    if dist < 10 ∧ 0 < dist then
      let separation := (10 - dist) / 2
      let fx := dx / dist * separation
      let fy := dy / dist * separation
      let p1a := if p1.fixed then p1 else { p1 with x := p1.x - fx, y := p1.y - fy }
      let p2a := if p2.fixed then p2 else { p2 with x := p2.x + fx, y := p2.y + fy }
      (pts.set i p1a).set j p2a
    else pts
  | _, _ => pts

/-- The index pairs `(i, j)`, `i < j`, in the order of the nested source loops. -/
def pairIndices (n : ℕ) : List (ℕ × ℕ) :=
  ((List.range n).map (fun i => (List.range' (i + 1) (n - (i + 1))).map (fun j => (i, j)))).flatten

/-- Collision pass (source lines 180–207): a single in-place sweep in index order. -/
def collisionPass (orc : MathOracle) (pts : List PhysicsPoint) : List PhysicsPoint :=
  (pairIndices pts.length).foldl (fun acc ij => collidePair orc acc ij.1 ij.2) pts

/-- One constraint of the constraint pass (source lines 210–236).  A distance
constraint naming a nonexistent point makes the JS code throw: `none`. -/
def constraintStep (orc : MathOracle) (pts : List PhysicsPoint)
    (c : PhysicsConstraint) : Option (List PhysicsPoint) :=
  if c.ctype = .distance ∧ c.points.length = 2 then
    match pts[c.points.getD 0 0]?, pts[c.points.getD 1 0]? with
    | some p1, some p2 =>
      let dx := p2.x - p1.x
      let dy := p2.y - p1.y
      let dist := orc.sqrt (dx * dx + dy * dy)
      if 0 < dist then
        let correction := (c.targetValue - dist) * c.strength
        let cx := dx / dist * correction * (1/2)
        let cy := dy / dist * correction * (1/2)
        let p1a := if p1.fixed then p1 else { p1 with x := p1.x - cx, y := p1.y - cy }
        let p2a := if p2.fixed then p2 else { p2 with x := p2.x + cx, y := p2.y + cy }
        some ((pts.set (c.points.getD 0 0) p1a).set (c.points.getD 1 0) p2a)
      else some pts
    | _, _ => none
  else some pts

/-- All constraints (source lines 210–236). -/
def constraintsPass (orc : MathOracle) (constraints : List PhysicsConstraint)
    (pts : List PhysicsPoint) : Option (List PhysicsPoint) :=
  List.foldlM (constraintStep orc) pts constraints

/-- Integration with boundary clamping (source lines 239–273): semi-implicit
Euler, air resistance `0.999`, clamp to `[5, size − 5]` with velocity `× −0.3`. -/
def integratePoint (dt w h : ℚ) (p : PhysicsPoint) : PhysicsPoint :=
  if p.fixed then p
  else
    let vx1 := (p.vx + p.ax * dt) * (999/1000)
    let vy1 := (p.vy + p.ay * dt) * (999/1000)
    let x1 := p.x + vx1 * dt
    let y1 := p.y + vy1 * dt
    let s2 : ℚ × ℚ := if x1 < 5 then (5, vx1 * (-(3:ℚ)/10)) else (x1, vx1)
    let s3 : ℚ × ℚ := if s2.1 > w - 5 then (w - 5, s2.2 * (-(3:ℚ)/10)) else s2
    let t2 : ℚ × ℚ := if y1 < 5 then (5, vy1 * (-(3:ℚ)/10)) else (y1, vy1)
    let t3 : ℚ × ℚ := if t2.1 > h - 5 then (h - 5, t2.2 * (-(3:ℚ)/10)) else t2
    { p with x := s3.1, vx := s3.2, y := t3.1, vy := t3.2 }

/-- The point-list transformation performed by `update(deltaTime)`
(source lines 107–274): reset accelerations, gravity, wind, springs,
collisions, constraints, integration. -/
def updatePoints (orc : MathOracle) (dt : ℚ) (springs : List PhysicsSpring)
    (constraints : List PhysicsConstraint) (wx wy gravity w h : ℚ)
    (pts : List PhysicsPoint) : Option (List PhysicsPoint) :=
  match springsPass orc springs (windPass wx wy (gravityPass gravity (pts.map resetAccel))) with
  | none => none
  | some pts4 =>
    match constraintsPass orc constraints (collisionPass orc pts4) with
    | none => none
    | some pts6 => some (pts6.map (integratePoint dt w h))

/-- `update(deltaTime)` (source lines 107–274): the state with the transformed
point list (all other fields are untouched by `update`). -/
def update (orc : MathOracle) (dt : ℚ) (s : PhysicsState) : Option PhysicsState :=
  (updatePoints orc dt s.springs s.constraints s.wind.1 s.wind.2 s.gravity
      s.canvasWidth s.canvasHeight s.points).map (fun pts => { s with points := pts })

/-- Iterated `update`. -/
def updateN (orc : MathOracle) (dt : ℚ) : ℕ → PhysicsState → Option PhysicsState
  | 0, s => some s
  | n + 1, s => (update orc dt s).bind (updateN orc dt n)

/-! ## Growth Engine data model (source lines 842–878) -/

structure Point where
  x : ℚ
  y : ℚ
deriving DecidableEq

inductive DrawingMode where
  | neural
  | electric
  | organic
deriving DecidableEq

/-- The fields of `GrowthSettings` consumed by the Growth Engine. -/
structure GrowthSettings where
  branchComplexity : ℚ
  selectedColor : String
  drawingMode : DrawingMode
  particleEffects : Bool
deriving DecidableEq

structure Branch where
  startX : ℚ
  startY : ℚ
  endX : ℚ
  endY : ℚ
  angle : ℚ
  length : ℚ
  generation : ℕ
  progress : ℚ
  maxProgress : ℚ
  color : String
  opacity : ℚ
  lastGrowth : ℚ
deriving DecidableEq

/-- A completion-callback invocation `(endX, endY, color)`. -/
abbrev GrowthEvent := ℚ × ℚ × String

def colors : List String := ["#00E0FF", "#FF2CFB", "#A020F0", "#00FFAA", "#FF6B35"]

def electricColors : List String := ["#00E0FF", "#4F46E5", "#8B5CF6", "#06B6D4"]

def organicColors : List String := ["#00FFAA", "#10B981", "#34D399", "#6EE7B7"]

/-- `getRandomColor(generation, settings)` (source lines 864–878). -/
def getRandomColor (generation : ℕ) (st : GrowthSettings) (g : Rng) : String × Rng :=
  match st.drawingMode with
  | .electric =>
    let (r, g1) := g.next
    (electricColors.getD (⌊r * 4⌋).toNat "", g1)
  | .organic =>
    let (r, g1) := g.next
    (organicColors.getD (⌊r * 4⌋).toNat "", g1)
  | .neural =>
    if generation = 0 then (st.selectedColor, g)
    else if generation = 1 then ("#FF2CFB", g)
    else
      let (r, g1) := g.next
      (colors.getD (⌊r * 5⌋).toNat "", g1)

/-- Mode parameters of `generateBranches` (source lines 890–902):
`(numBranches factor, branchLengthMultiplier, angleVariation)`. -/
def seedModeParams (mode : DrawingMode) : ℚ × ℚ × ℚ :=
  match mode with
  | .electric => (2/25, 3/2, 6/5)
  | .organic => (3/100, 4/5, 3/5)
  | .neural => (1/20, 1, 4/5)

/-- One seeded branch: the object literal of source lines 923–936, with the
preceding draws for `angleOffset` and `length` (lines 919–921).  Random draws
in source evaluation order: angle offset, length, `maxProgress`, the draw
inside `getRandomColor` when its mode consumes one, opacity, `lastGrowth`. -/
def mkSeed (orc : MathOracle) (now : ℚ) (st : GrowthSettings)
    (lenMul angVar strokeAngle : ℚ) (point : Point) (g : Rng) : Branch × Rng :=
  let (r1, g1) := g.next
  let angleOffset := (r1 - 1/2) * orc.pi * angVar
  let angle := strokeAngle + angleOffset
  let (r2, g2) := g1.next
  let length := (30 + r2 * 50) * lenMul
  let (r3, g3) := g2.next
  let maxProgress := 60 + r3 * 40
  let (color, g4) := getRandomColor 0 st g3
  let (r4, g5) := g4.next
  let opacity := 8/10 + r4 * (2/10)
  let (r5, g6) := g5.next
  ({ startX := point.x, startY := point.y,
     endX := point.x + orc.cos angle * length,
     endY := point.y + orc.sin angle * length,
     angle := angle, length := length, generation := 0,
     progress := 0, maxProgress := maxProgress, color := color,
     opacity := opacity, lastGrowth := now + r5 * 2000 }, g6)

/-- Inner loop of `generateBranches` (source lines 918–937): `numInitial`
branches seeded at one sampled stroke point. -/
def seedInner (orc : MathOracle) (now : ℚ) (st : GrowthSettings)
    (lenMul angVar strokeAngle : ℚ) (point : Point) (numInitial : ℕ)
    (acc : List Branch × Rng) : List Branch × Rng :=
  (List.range numInitial).foldl
    (fun acc2 _ =>
      let (b, g2) := mkSeed orc now st lenMul angVar strokeAngle point acc2.2
      (acc2.1 ++ [b], g2)) acc

/-- `generateBranches(strokePoints, settings)` (source lines 880–941).  Returns
the branch list plus the final RNG cursor.  Note there is NO population cap. -/
def generateBranches (orc : MathOracle) (now : ℚ) (strokePoints : List Point)
    (st : GrowthSettings) (g : Rng) : List Branch × Rng :=
  if strokePoints.length < 2 then ([], g)
  else
    let complexity := min (st.branchComplexity / 100) (1/4)
    let p := seedModeParams st.drawingMode
    let numBranches : ℕ := (max 1 ⌊(strokePoints.length : ℚ) * complexity * p.1⌋).toNat
    let lenMul := p.2.1
    let angVar := p.2.2
    (List.range numBranches).foldl
      (fun acc (i : ℕ) =>
        let pointIndex : ℕ := (⌊((strokePoints.length : ℚ) - 1) * ((i : ℚ) / (numBranches : ℚ))⌋).toNat
        let point := strokePoints.getD pointIndex ⟨0, 0⟩
        let strokeAngle : ℚ :=
          if pointIndex < strokePoints.length - 1 then
            let nextPoint := strokePoints.getD (pointIndex + 1) ⟨0, 0⟩
            orc.atan2 (nextPoint.y - point.y) (nextPoint.x - point.x)
          else 0
        let (r0, g1) := acc.2.next
        let numInitial : ℕ :=
          if st.drawingMode = .electric then (⌊r0 * 3⌋ + 1).toNat else (⌊r0 * 2⌋ + 1).toNat
        seedInner orc now st lenMul angVar strokeAngle point numInitial (acc.1, g1))
      ([], g)

/-- Mode parameters of `animateBranches` (source lines 951–967):
`(branchProbability, maxGenerations, growthDelay)`. -/
def animModeParams (mode : DrawingMode) : ℚ × ℕ × ℚ :=
  match mode with
  | .electric => (3/200, 4, 800)
  | .organic => (1/125, 5, 1500)
  | .neural => (1/100, 3, 1000)

/-- A spawned child branch: the object literal of source lines 1005–1018.
Random draws in source evaluation order: `maxProgress`, the draw inside
`getRandomColor` when its mode consumes one, `lastGrowth`. -/
def mkChild (orc : MathOracle) (st : GrowthSettings) (now : ℚ) (b : Branch)
    (newAngle newLength startX startY : ℚ) (g : Rng) : Branch × Rng :=
  let (r5, g1) := g.next
  let maxProgress := 40 + r5 * 30
  let (color, g2) := getRandomColor (b.generation + 1) st g1
  let (r6, g3) := g2.next
  ({ startX := startX, startY := startY,
     endX := startX + orc.cos newAngle * newLength,
     endY := startY + orc.sin newAngle * newLength,
     angle := newAngle, length := newLength, generation := b.generation + 1,
     progress := 0, maxProgress := maxProgress, color := color,
     opacity := max (3/10) (b.opacity - (b.generation : ℚ) * (15/100)),
     lastGrowth := now + r6 * 1000 }, g3)

/-- Spawn loop body (source lines 994–1020): the draws for the angle deviation
and the length happen BEFORE the population-cap test guarding the push. -/
def spawnStep (orc : MathOracle) (st : GrowthSettings) (now : ℚ) (b1 : Branch)
    (acc2 : List Branch × Rng) : List Branch × Rng :=
  let (r3, g1) := acc2.2.next
  let dev : ℚ :=
    if st.drawingMode = .organic then (r3 - 1/2) * orc.pi * (2/5)
    else (r3 - 1/2) * orc.pi * (3/5)
  let newAngle := b1.angle + dev
  let (r4, g2) := g1.next
  let newLength := b1.length * (6/10 + r4 * (3/10))
  let startX := b1.startX + orc.cos b1.angle * b1.length
  let startY := b1.startY + orc.sin b1.angle * b1.length
  if acc2.1.length < 500 then
    let (c, g3) := mkChild orc st now b1 newAngle newLength startX startY g2
    (acc2.1 ++ [c], g3)
  else (acc2.1, g2)

/-- The child-spawn loop of `animateBranches` (source lines 994–1020). -/
def spawnChildren (orc : MathOracle) (st : GrowthSettings) (now : ℚ) (b1 : Branch)
    (numNew : ℕ) (acc : List Branch × Rng) : List Branch × Rng :=
  (List.range numNew).foldl (fun acc2 _ => spawnStep orc st now b1 acc2) acc

/-- Per-branch body of the `forEach` of `animateBranches` (source lines 969–1024).
State: accumulated output list, accumulated callback invocations, RNG. -/
def animStep (orc : MathOracle) (growthSpeed : ℚ) (st : GrowthSettings)
    (hasCallback : Bool) (now : ℚ)
    (acc : List Branch × List GrowthEvent × Rng) (b : Branch) :
    List Branch × List GrowthEvent × Rng :=
  let speedMultiplier := growthSpeed / 50
  let mp := animModeParams st.drawingMode
  let grew := b.progress < b.maxProgress ∧ 16 < now - b.lastGrowth
  let b1 := if grew then
      { b with progress := min b.maxProgress (b.progress + speedMultiplier), lastGrowth := now }
    else b
  let ev : List GrowthEvent :=
    if grew ∧ st.particleEffects ∧ hasCallback ∧ b.maxProgress ≤ b1.progress ∧
        b.progress < b.maxProgress then
      [(b.startX + orc.cos b.angle * b.length, b.startY + orc.sin b.angle * b.length, b.color)]
    else []
  let parentIdx := acc.1.length
  let nb := acc.1 ++ [b1]
  let evs := acc.2.1 ++ ev
  if b1.maxProgress ≤ b1.progress ∧ b1.generation < mp.2.1 then
    let (r, g1) := acc.2.2.next
    if r < mp.1 * speedMultiplier ∧ mp.2.2 < now - b1.lastGrowth ∧ nb.length < 500 then
      let (numNew, g2) :=
        if st.drawingMode = .electric then
          let (r2, g2a) := g1.next
          ((⌊r2 * 2⌋ + 1).toNat, g2a)
        else (1, g1)
      let (nb2, g3) := spawnChildren orc st now b1 numNew (nb, g2)
      (nb2.set parentIdx { b1 with lastGrowth := now }, evs, g3)
    else (nb, evs, g1)
  else (nb, evs, acc.2.2)

/-- Pulse of fully grown branches (source lines 1026–1034). -/
def pulseOne (orc : MathOracle) (st : GrowthSettings) (now : ℚ) (b : Branch) : Branch :=
  if b.maxProgress ≤ b.progress ∧ jsMod now 100 < 16 then
    let pulseIntensity : ℚ := if st.drawingMode = .electric then 1/10 else 1/20
    let pulseSpeed : ℚ := if st.drawingMode = .electric then 1/500 else 1/1000
    let pulsePhase := jsMod (now * pulseSpeed + b.startX * (1/100)) (orc.pi * 2)
    { b with opacity := max (3/10) (b.opacity + orc.sin pulsePhase * pulseIntensity) }
  else b

/-- `animateBranches(branches, growthSpeed, settings, onParticleGeneration?)`
(source lines 943–1035).  `hasCallback` models whether the optional callback
was supplied; the second component collects its invocations in order. -/
def animateBranches (orc : MathOracle) (branches : List Branch) (growthSpeed : ℚ)
    (st : GrowthSettings) (hasCallback : Bool) (now : ℚ) (g : Rng) :
    List Branch × List GrowthEvent × Rng :=
  let activeBranches := branches.take 500
  let res := activeBranches.foldl (animStep orc growthSpeed st hasCallback now) ([], [], g)
  (res.1.map (pulseOne orc st now), res.2.1, res.2.2)

/-- A run of `animateBranches` calls, one per frame; `times k` is `Date.now()`
at the `k`-th call.  Collects all callback invocations of the run. -/
def runAnimate (orc : MathOracle) (growthSpeed : ℚ) (st : GrowthSettings)
    (hasCallback : Bool) : (ℕ → ℚ) → ℕ → List Branch → Rng →
    List Branch × List GrowthEvent × Rng
  | _, 0, bs, g => (bs, [], g)
  | times, n + 1, bs, g =>
    let r1 := animateBranches orc bs growthSpeed st hasCallback (times 0) g
    let r2 := runAnimate orc growthSpeed st hasCallback (fun k => times (k + 1)) n r1.1 r1.2.2
    (r2.1, r1.2.1 ++ r2.2.1, r2.2.2)

/-! ## Generic helper lemmas -/

/-- An `Option`-valued fold fails as soon as one element fails, provided the
invariant `P` is preserved by successful steps and forces `c` to fail. -/
lemma foldlM_option_none {α β : Type} (f : β → α → Option β) (P : β → Prop)
    (hP : ∀ acc a b, f acc a = some b → P acc → P b)
    (c : α) (hc : ∀ acc, P acc → f acc c = none) :
    ∀ (l : List α) (init : β), P init → c ∈ l → List.foldlM f init l = none := by
  intro l
  induction l with
  | nil => intro init _ hmem; cases hmem
  | cons x xs ih =>
    intro init hinit hmem
    rw [List.foldlM_cons]
    rcases List.mem_cons.mp hmem with hx | hxs
    · subst hx
      rw [hc init hinit]
      rfl
    · cases hfx : f init x with
      | none => rfl
      | some b =>
        have hb : P b := hP init x b hfx hinit
        simp only [Option.bind_eq_bind, Option.some_bind]
        exact ih b hb hxs

/-- Successful `Option`-valued folds preserve an invariant preserved by steps. -/
lemma foldlM_option_preserve {α β : Type} (f : β → α → Option β) (P : β → Prop)
    (hP : ∀ acc a b, f acc a = some b → P acc → P b) :
    ∀ (l : List α) (init out : β), List.foldlM f init l = some out → P init → P out := by
  intro l
  induction l with
  | nil =>
    intro init out h hinit
    have hio : init = out := by simpa using h
    exact hio ▸ hinit
  | cons x xs ih =>
    intro init out h hinit
    rw [List.foldlM_cons] at h
    cases hfx : f init x with
    | none => rw [hfx] at h; exact absurd h (by simp)
    | some b =>
      rw [hfx] at h
      simp only [Option.bind_eq_bind, Option.some_bind] at h
      exact ih b out h (hP init x b hfx hinit)

/-- A plain fold preserves an invariant preserved by each step. -/
lemma foldl_preserve {α β : Type} (f : β → α → β) (P : β → Prop)
    (hf : ∀ acc a, P acc → P (f acc a)) :
    ∀ (l : List α) (init : β), P init → P (l.foldl f init) := by
  intro l
  induction l with
  | nil => intro init h; exact h
  | cons x xs ih => intro init h; exact ih (f init x) (hf init x h)

/-- A fold preserves an invariant when each step does, knowing the element
comes from a fixed ambient list. -/
lemma foldl_preserve_mem {α β : Type} (f : β → α → β) (P : β → Prop) (l0 : List α)
    (hf : ∀ acc a, a ∈ l0 → P acc → P (f acc a)) :
    ∀ (l : List α), (∀ a ∈ l, a ∈ l0) → ∀ (init : β), P init → P (l.foldl f init) := by
  intro l
  induction l with
  | nil => intro _ init h; exact h
  | cons x xs ih =>
    intro hsub init h
    exact ih (fun a ha => hsub a (List.mem_cons_of_mem x ha)) (f init x)
      (hf init x (hsub x (List.mem_cons_self x xs)) h)

/-! ## Length preservation through the update pipeline -/

lemma gravityPass_length (gravity : ℚ) (pts : List PhysicsPoint) :
    (gravityPass gravity pts).length = pts.length := by
  unfold gravityPass; split <;> simp

lemma windPass_length (wx wy : ℚ) (pts : List PhysicsPoint) :
    (windPass wx wy pts).length = pts.length := by
  unfold windPass; split <;> simp

lemma springStep_length {orc : MathOracle} {pts pts' : List PhysicsPoint}
    {sp : PhysicsSpring} (h : springStep orc pts sp = some pts') :
    pts'.length = pts.length := by
  unfold springStep at h
  split at h
  · rename_i p1 p2 e1 e2
    by_cases hd : (0:ℚ) < orc.sqrt ((p2.x - p1.x) * (p2.x - p1.x) + (p2.y - p1.y) * (p2.y - p1.y))
    · rw [if_pos hd, Option.some.injEq] at h
      rw [← h]
      simp
    · rw [if_neg hd, Option.some.injEq] at h
      rw [← h]
  · exact Option.noConfusion h

lemma springsPass_length {orc : MathOracle} {springs : List PhysicsSpring}
    {pts pts' : List PhysicsPoint} (h : springsPass orc springs pts = some pts') :
    pts'.length = pts.length := by
  have := foldlM_option_preserve (springStep orc) (fun l => l.length = pts.length)
    (fun acc a b hab hacc => (springStep_length hab).trans hacc) springs pts pts' h rfl
  exact this

lemma collidePair_length (orc : MathOracle) (pts : List PhysicsPoint) (i j : ℕ) :
    (collidePair orc pts i j).length = pts.length := by
  unfold collidePair
  cases h1 : pts[i]? <;> cases h2 : pts[j]? <;> simp only []
  split
  · simp
  · rfl

lemma collisionPass_length (orc : MathOracle) (pts : List PhysicsPoint) :
    (collisionPass orc pts).length = pts.length := by
  unfold collisionPass
  exact foldl_preserve _ (fun l => l.length = pts.length)
    (fun (acc : List PhysicsPoint) (a : ℕ × ℕ) hacc =>
      (collidePair_length orc acc a.1 a.2).trans hacc) _ pts rfl

lemma constraintStep_length {orc : MathOracle} {pts pts' : List PhysicsPoint}
    {c : PhysicsConstraint} (h : constraintStep orc pts c = some pts') :
    pts'.length = pts.length := by
  unfold constraintStep at h
  by_cases hty : c.ctype = ConstraintType.distance ∧ c.points.length = 2
  · rw [if_pos hty] at h
    split at h
    · rename_i p1 p2 e1 e2
      by_cases hd : (0:ℚ) < orc.sqrt ((p2.x - p1.x) * (p2.x - p1.x) + (p2.y - p1.y) * (p2.y - p1.y))
      · rw [if_pos hd, Option.some.injEq] at h
        rw [← h]
        simp
      · rw [if_neg hd, Option.some.injEq] at h
        rw [← h]
    · exact Option.noConfusion h
  · rw [if_neg hty, Option.some.injEq] at h
    rw [← h]

/-- Claim C4 counterexample input: a state with a single point and a stored
distance constraint whose second index (5) names no existing point. -/
def c4State : PhysicsState :=
  addDistanceConstraint
    { points := [{ x := 100, y := 100, vx := 0, vy := 0, ax := 0, ay := 0, mass := 1, fixed := false }],
      springs := [], constraints := [], wind := (0, 0), gravity := 0,
      canvasWidth := 800, canvasHeight := 600 } 0 5 10 (1/2)

/-- Oracle used by concrete physics counterexamples: an exact square root on
the perfect squares that actually occur. -/
def orcPhys : MathOracle :=
  { sqrt := fun q => if q = 100 then 10 else if q = 64 then 8 else 0,
    cos := fun _ => 1, sin := fun _ => 0, atan2 := fun _ _ => 0, pi := 0 }

/-- Claim C4 counterexample: `addDistanceConstraint` with an out-of-range index
does NOT "cause no effect" — the dangling constraint is stored — and the next
`update` is a failure (the JS code throws reading `undefined.x`), not a
silently skipped no-op. -/
theorem C4_counterexample :
    c4State.constraints =
      [{ ctype := .distance, points := [0, 5], targetValue := 10, strength := 1/2 }] ∧
    update orcPhys 1 c4State = none := by
  constructor
  · rfl
  · rfl

/-- Claim C4 (amended): `addSpring` with an index at or past the end of the
point list is a silent no-op; but `addDistanceConstraint` performs no index
validation and always stores its constraint; and a stored distance constraint
or spring that references a nonexistent point makes `update` fail (modelling
the thrown `TypeError`) rather than being skipped. -/
theorem C4_out_of_range :
    (∀ (orc : MathOracle) (s : PhysicsState) (i j : ℕ) (st dm : ℚ),
      s.points.length ≤ i ∨ s.points.length ≤ j → addSpring orc s i j st dm = s) ∧
    (∀ (s : PhysicsState) (i j : ℕ) (d st : ℚ),
      (addDistanceConstraint s i j d st).constraints =
        s.constraints ++ [{ ctype := .distance, points := [i, j],
                            targetValue := d, strength := st }]) ∧
    (∀ (orc : MathOracle) (dt : ℚ) (s : PhysicsState) (c : PhysicsConstraint) (i j : ℕ),
      c ∈ s.constraints → c.ctype = .distance → c.points = [i, j] →
      s.points.length ≤ i ∨ s.points.length ≤ j → update orc dt s = none) ∧
    (∀ (orc : MathOracle) (dt : ℚ) (s : PhysicsState) (sp : PhysicsSpring),
      sp ∈ s.springs → s.points.length ≤ sp.point1 ∨ s.points.length ≤ sp.point2 →
      update orc dt s = none) := by
  refine ⟨?_, ?_, ?_, ?_⟩
  · intro orc s i j st dm h
    unfold addSpring
    rw [if_pos h]
  · intro s i j d st
    rfl
  · intro orc dt s c i j hmem hty hpts hrange
    unfold update updatePoints
    cases hsp : springsPass orc s.springs (windPass s.wind.1 s.wind.2
        (gravityPass s.gravity (s.points.map resetAccel))) with
    | none => rfl
    | some pts4 =>
      have hlen4 : pts4.length = s.points.length := by
        rw [springsPass_length hsp, windPass_length, gravityPass_length, List.length_map]
      have hlen5 : (collisionPass orc pts4).length = s.points.length := by
        rw [collisionPass_length, hlen4]
      have hnone : constraintsPass orc s.constraints (collisionPass orc pts4) = none := by
        apply foldlM_option_none (constraintStep orc)
          (fun l => l.length = s.points.length)
          (fun acc a b hab hacc => (constraintStep_length hab).trans hacc)
          c _ s.constraints _ hlen5 hmem
        intro acc hacc
        unfold constraintStep
        rw [if_pos (by rw [hty, hpts]; exact ⟨rfl, rfl⟩)]
        rw [hpts]
        simp only [List.getD, List.get?_cons_succ, List.get?_cons_zero, Option.getD_some]
        rcases hrange with hi | hj
        · rw [List.getElem?_eq_none (l := acc) (n := i) (by rw [hacc]; exact hi)]
        · rw [List.getElem?_eq_none (l := acc) (n := j) (by rw [hacc]; exact hj)]
          cases acc[i]? <;> rfl
      simp only [hnone, Option.map_none']
  · intro orc dt s sp hmem hrange
    unfold update updatePoints
    have hnone : springsPass orc s.springs (windPass s.wind.1 s.wind.2
        (gravityPass s.gravity (s.points.map resetAccel))) = none := by
      apply foldlM_option_none (springStep orc)
        (fun l => l.length = s.points.length)
        (fun acc a b hab hacc => (springStep_length hab).trans hacc)
        sp _ s.springs _ (by rw [windPass_length, gravityPass_length, List.length_map]) hmem
      intro acc hacc
      unfold springStep
      rcases hrange with hi | hj
      · rw [List.getElem?_eq_none (by rw [hacc]; exact hi)]
      · rw [List.getElem?_eq_none (l := acc) (n := sp.point2) (by rw [hacc]; exact hj)]
        cases acc[sp.point1]? <;> rfl
    simp only [hnone, Option.map_none']

/-! ## Claim C5: boundary clamping -/

lemma integratePoint_fixed (dt w h : ℚ) (p : PhysicsPoint) :
    (integratePoint dt w h p).fixed = p.fixed := by
  unfold integratePoint
  split
  · rfl
  · rfl

lemma integratePoint_bounds (dt w h : ℚ) (q : PhysicsPoint)
    (hfree : q.fixed = false) (hw : 10 ≤ w) (hh : 10 ≤ h) :
    5 ≤ (integratePoint dt w h q).x ∧ (integratePoint dt w h q).x ≤ w - 5 ∧
    5 ≤ (integratePoint dt w h q).y ∧ (integratePoint dt w h q).y ≤ h - 5 := by
  unfold integratePoint
  rw [hfree]
  simp only [Bool.false_eq_true, if_false]
  split_ifs <;> refine ⟨?_, ?_, ?_, ?_⟩ <;> simp_all <;> linarith

/-- Claim C5 counterexample input: a single FIXED point far outside the
800 × 600 canvas. -/
def c5State : PhysicsState :=
  { points := [{ x := 1000, y := 1000, vx := 0, vy := 0, ax := 0, ay := 0, mass := 1, fixed := true }],
    springs := [], constraints := [], wind := (0, 0), gravity := 0,
    canvasWidth := 800, canvasHeight := 600 }

/-- Claim C5 counterexample: a fixed point is never clamped, so after a step
its coordinates can lie outside `[5, 795] × [5, 595]` — "every point's
coordinates lie within these bounds" is false on the code. -/
theorem C5_counterexample :
    (update orcPhys 1 c5State).map (fun s => s.points.map (fun p => (p.x, p.y))) =
      some [(1000, 1000)] ∧ ¬((1000 : ℚ) ≤ 800 - 5) := by
  constructor
  · rfl
  · norm_num

/-- Claim C5 (amended): every NON-FIXED point is clamped into
`[margin, canvasWidth−margin] × [margin, canvasHeight−margin]` (margin 5,
assuming the canvas is at least `2×margin` wide and high) after every
successful step, and whenever the integrated candidate coordinate crosses a
bound, the position is clamped to that bound and the corresponding velocity
component is multiplied by `−0.3`; fixed points are never clamped. -/
theorem C5_clamping :
    (∀ (orc : MathOracle) (dt : ℚ) (s s' : PhysicsState) (p : PhysicsPoint),
      10 ≤ s.canvasWidth → 10 ≤ s.canvasHeight → update orc dt s = some s' →
      p ∈ s'.points → p.fixed = false →
      5 ≤ p.x ∧ p.x ≤ s.canvasWidth - 5 ∧ 5 ≤ p.y ∧ p.y ≤ s.canvasHeight - 5) ∧
    (∀ (dt w h : ℚ) (q : PhysicsPoint), q.fixed = false → 10 ≤ w →
      (q.x + (q.vx + q.ax * dt) * (999/1000) * dt < 5 →
        (integratePoint dt w h q).x = 5 ∧
        (integratePoint dt w h q).vx = (q.vx + q.ax * dt) * (999/1000) * (-(3:ℚ)/10)) ∧
      (¬(q.x + (q.vx + q.ax * dt) * (999/1000) * dt < 5) →
        w - 5 < q.x + (q.vx + q.ax * dt) * (999/1000) * dt →
        (integratePoint dt w h q).x = w - 5 ∧
        (integratePoint dt w h q).vx = (q.vx + q.ax * dt) * (999/1000) * (-(3:ℚ)/10)) ∧
      (¬(q.x + (q.vx + q.ax * dt) * (999/1000) * dt < 5) →
        ¬(w - 5 < q.x + (q.vx + q.ax * dt) * (999/1000) * dt) →
        (integratePoint dt w h q).x = q.x + (q.vx + q.ax * dt) * (999/1000) * dt ∧
        (integratePoint dt w h q).vx = (q.vx + q.ax * dt) * (999/1000))) := by
  constructor
  · intro orc dt s s' p hw hh hupd hp hfree
    unfold update updatePoints at hupd
    cases hsp : springsPass orc s.springs (windPass s.wind.1 s.wind.2
        (gravityPass s.gravity (s.points.map resetAccel))) with
    | none =>
      simp only [hsp, Option.map_none'] at hupd
      exact Option.noConfusion hupd
    | some pts4 =>
      simp only [hsp] at hupd
      cases hcp : constraintsPass orc s.constraints (collisionPass orc pts4) with
      | none =>
        simp only [hcp, Option.map_none'] at hupd
        exact Option.noConfusion hupd
      | some pts6 =>
        simp only [hcp, Option.map_some', Option.some.injEq] at hupd
        subst hupd
        simp only [List.mem_map] at hp
        obtain ⟨q, _, hq⟩ := hp
        subst hq
        have hqfree : q.fixed = false := by
          rw [← integratePoint_fixed dt s.canvasWidth s.canvasHeight q]
          exact hfree
        exact integratePoint_bounds dt s.canvasWidth s.canvasHeight q hqfree hw hh
  · intro dt w h q hfree hw
    refine ⟨?_, ?_, ?_⟩
    · intro hlow
      unfold integratePoint
      rw [hfree]
      simp only [Bool.false_eq_true, if_false]
      rw [if_pos hlow]
      have h2 : ¬((5:ℚ) > w - 5) := by simp; linarith
      rw [if_neg h2]
      exact ⟨rfl, rfl⟩
    · intro hnl hhigh
      unfold integratePoint
      rw [hfree]
      simp only [Bool.false_eq_true, if_false]
      rw [if_neg hnl, if_pos hhigh]
      exact ⟨rfl, rfl⟩
    · intro hnl hnh
      unfold integratePoint
      rw [hfree]
      simp only [Bool.false_eq_true, if_false]
      rw [if_neg hnl, if_neg hnh]
      exact ⟨rfl, rfl⟩

/-- Witness input for `C5_clamping`: a free point about to overshoot the right
boundary. -/
def c5wState : PhysicsState :=
  { points := [{ x := 790, y := 300, vx := 10, vy := 0, ax := 0, ay := 0,
                 mass := 1, fixed := false }],
    springs := [], constraints := [], wind := (0, 0), gravity := 0,
    canvasWidth := 800, canvasHeight := 600 }

/-- The point produced by one `update` on `c5wState`. -/
def c5wPoint : PhysicsPoint :=
  { x := 795, y := 300, vx := -(2997/1000), vy := 0, ax := 0, ay := 0, mass := 1, fixed := false }

/-- Witness for `C5_clamping` at a concrete input. -/
theorem C5_clamping_witness :
    (10:ℚ) ≤ c5wState.canvasWidth ∧ (10:ℚ) ≤ c5wState.canvasHeight ∧
    update orcPhys 1 c5wState = some { c5wState with points := [c5wPoint] } ∧
    c5wPoint ∈ ({ c5wState with points := [c5wPoint] } : PhysicsState).points ∧
    c5wPoint.fixed = false ∧
    (5 ≤ c5wPoint.x ∧ c5wPoint.x ≤ c5wState.canvasWidth - 5 ∧
     5 ≤ c5wPoint.y ∧ c5wPoint.y ≤ c5wState.canvasHeight - 5) :=
  have hupd : update orcPhys 1 c5wState = some { c5wState with points := [c5wPoint] } := by
    norm_num [update, updatePoints, springsPass, constraintsPass, collisionPass,
      (show pairIndices 1 = [] from rfl), gravityPass, windPass, resetAccel,
      integratePoint, orcPhys, c5wState, c5wPoint]
  ⟨by norm_num [c5wState], by norm_num [c5wState], hupd,
   List.mem_singleton.mpr rfl, rfl,
   C5_clamping.1 orcPhys 1 c5wState { c5wState with points := [c5wPoint] } c5wPoint
     (by norm_num [c5wState]) (by norm_num [c5wState]) hupd
     (List.mem_singleton.mpr rfl) rfl⟩

/-! ## Claim C3: spring forces -/

lemma integratePoint_accel (dt w h : ℚ) (p : PhysicsPoint) :
    (integratePoint dt w h p).ax = p.ax ∧ (integratePoint dt w h p).ay = p.ay := by
  unfold integratePoint
  split
  · exact ⟨rfl, rfl⟩
  · exact ⟨rfl, rfl⟩

/-- The collision pass moves positions only: accelerations are untouched
(stated for a two-point list). -/
lemma collidePair_accel_two (orc : MathOracle) (a b : PhysicsPoint) :
    (collidePair orc [a, b] 0 1).map (fun p => (p.ax, p.ay)) =
      [(a.ax, a.ay), (b.ax, b.ay)] := by
  unfold collidePair
  simp only [List.getElem?_cons_zero, List.getElem?_cons_succ]
  split
  · simp only [List.set_cons_zero, List.set_cons_succ, List.map_cons, List.map_nil,
      List.cons.injEq, and_true]
    constructor
    · split <;> rfl
    · split <;> rfl
  · rfl

/-- Modelled from the spec (claim C3's wording): a damping acceleration
proportional (coefficient 0.05) to the relative velocity COMPONENT ALONG the
spring, applied along the normalized separation vector.  This is what the
claim asserts; it differs from the code. -/
def claimDampingAccel (p1 p2 : PhysicsPoint) (d : ℚ) : ℚ × ℚ :=
  let ux := (p2.x - p1.x) / d
  let uy := (p2.y - p1.y) / d
  let along := (p2.vx - p1.vx) * ux + (p2.vy - p1.vy) * uy
  (along * ux * (1/20), along * uy * (1/20))

/-- Claim C3 counterexample input: two free unit-mass points 10 apart on the
x-axis, a spring at rest length (zero spring force), relative velocity purely
PERPENDICULAR to the spring. -/
def c3p1 : PhysicsPoint :=
  { x := 100, y := 100, vx := 0, vy := 0, ax := 0, ay := 0, mass := 1, fixed := false }

def c3p2 : PhysicsPoint :=
  { x := 110, y := 100, vx := 0, vy := 1, ax := 0, ay := 0, mass := 1, fixed := false }

def c3State : PhysicsState :=
  { points := [c3p1, c3p2],
    springs := [⟨0, 1, 10, 1/10, 99/100⟩],
    constraints := [], wind := (0, 0), gravity := 0,
    canvasWidth := 800, canvasHeight := 600 }

/-- Claim C3 counterexample: with the spring at rest length and the relative
velocity perpendicular to the spring, the claim predicts zero acceleration
(the along-spring velocity component is zero), but the code produces the
accelerations `(0, ±0.05)`: its damping uses the full relative velocity
vector, not its component along the spring. -/
theorem C3_counterexample :
    (update orcPhys 1 c3State).map (fun s => s.points.map (fun p => (p.ax, p.ay))) =
      some [(0, 1/20), (0, -(1/20))] ∧
    claimDampingAccel c3p1 c3p2 10 = (0, 0) ∧
    ((1/20 : ℚ) ≠ 0) := by
  refine ⟨?_, ?_, by norm_num⟩
  · norm_num [update, updatePoints, springsPass, constraintsPass, collisionPass,
      (show pairIndices 2 = [(0, 1)] from rfl), collidePair, springStep,
      gravityPass, windPass, resetAccel, integratePoint, orcPhys, c3State, c3p1, c3p2]
  · norm_num [claimDampingAccel, c3p1, c3p2]

/-- Claim C3 (amended): in a step on a two-point, one-spring system (gravity 0,
wind 0, no constraints), writing `d` for the computed separation length, if
`d > 0` each non-fixed endpoint gains the spring acceleration
`(d − restLength)·stiffness` along the normalized separation vector divided by
its own mass, with opposite signs, PLUS a damping acceleration `0.05` times the
FULL relative velocity vector (not its along-spring component, and not divided
by the mass), with opposite signs; fixed endpoints gain nothing, and if the
computed separation is not positive the spring contributes nothing. -/
theorem C3_spring_forces (orc : MathOracle) (dt : ℚ) (p1 p2 : PhysicsPoint)
    (rest stiff damp : ℚ) (s : PhysicsState)
    (hpts : s.points = [p1, p2])
    (hsp : s.springs = [⟨0, 1, rest, stiff, damp⟩])
    (hc : s.constraints = []) (hg : s.gravity = 0) (hw : s.wind = (0, 0)) :
    (update orc dt s).map (fun s' => s'.points.map (fun p => (p.ax, p.ay))) =
      some (
        let dx := p2.x - p1.x
        let dy := p2.y - p1.y
        let d := orc.sqrt (dx * dx + dy * dy)
        if 0 < d then
          [(if p1.fixed = true then ((0:ℚ), (0:ℚ)) else
             (dx / d * ((d - rest) * stiff) / p1.mass + (p2.vx - p1.vx) * (1/20),
              dy / d * ((d - rest) * stiff) / p1.mass + (p2.vy - p1.vy) * (1/20))),
           (if p2.fixed = true then ((0:ℚ), (0:ℚ)) else
             (-(dx / d * ((d - rest) * stiff) / p2.mass) - (p2.vx - p1.vx) * (1/20),
              -(dy / d * ((d - rest) * stiff) / p2.mass) - (p2.vy - p1.vy) * (1/20)))]
        else [((0:ℚ), (0:ℚ)), ((0:ℚ), (0:ℚ))]) := by
  have hInt : ((fun p : PhysicsPoint => (p.ax, p.ay)) ∘
      integratePoint dt s.canvasWidth s.canvasHeight) =
      (fun p : PhysicsPoint => (p.ax, p.ay)) :=
    funext fun p => by
      simp only [Function.comp_apply,
        (integratePoint_accel dt s.canvasWidth s.canvasHeight p).1,
        (integratePoint_accel dt s.canvasWidth s.canvasHeight p).2]
  have hColl : ∀ a b : PhysicsPoint, (collisionPass orc [a, b]).map (fun p => (p.ax, p.ay)) =
      [(a.ax, a.ay), (b.ax, b.ay)] := fun a b => collidePair_accel_two orc a b
  have hcp : ∀ L : List PhysicsPoint, constraintsPass orc [] L = some L := fun _ => rfl
  unfold update updatePoints
  rw [hpts, hsp, hc, hg, hw]
  rw [Option.map_map]
  simp only [Function.comp]
  have h1 : gravityPass 0 ([p1, p2].map resetAccel) = [resetAccel p1, resetAccel p2] := by
    unfold gravityPass
    rw [if_neg (lt_irrefl 0)]
    simp
  have h2 : windPass (0, 0).1 (0, 0).2 [resetAccel p1, resetAccel p2] =
      [resetAccel p1, resetAccel p2] := by
    unfold windPass
    rw [if_neg (by simp)]
  have h3 : springsPass orc [(⟨0, 1, rest, stiff, damp⟩ : PhysicsSpring)]
      [resetAccel p1, resetAccel p2] =
      springStep orc [resetAccel p1, resetAccel p2] ⟨0, 1, rest, stiff, damp⟩ := by
    simp [springsPass, List.foldlM_cons, List.foldlM_nil]
  rw [h1, h2, h3]
  unfold springStep
  simp only [List.getElem?_cons_zero, List.getElem?_cons_succ, resetAccel]
  by_cases hd : 0 < orc.sqrt ((p2.x - p1.x) * (p2.x - p1.x) + (p2.y - p1.y) * (p2.y - p1.y))
  · rw [if_pos hd]
    simp only [List.set_cons_zero, List.set_cons_succ, hcp, Option.map_some',
      Function.comp_apply, List.map_map, hInt]
    rw [hColl]
    simp only [Option.some.injEq]
    rw [if_pos hd]
    by_cases h1f : p1.fixed = true <;> by_cases h2f : p2.fixed = true <;>
      simp [h1f, h2f, zero_add, zero_sub]
  · rw [if_neg hd]
    simp only [hcp, Option.map_some', Function.comp_apply, List.map_map, hInt]
    rw [hColl]
    simp only [Option.some.injEq]
    rw [if_neg hd]

/-- Witness for `C3_spring_forces` at a concrete input. -/
theorem C3_spring_forces_witness :
    (update orcPhys 1 c3State).map (fun s' => s'.points.map (fun p => (p.ax, p.ay))) =
      some [(0, 1/20), (0, -(1/20))] := by
  have h := C3_spring_forces orcPhys 1 c3p1 c3p2 10 (1/10) (99/100) c3State rfl rfl rfl rfl rfl
  rw [h]
  norm_num [orcPhys, c3p1, c3p2]

/-! ## Claim C10: the per-spring damping field never influences the simulation -/

/-- The fields of a spring that `update` actually reads: everything except
`damping`. -/
def springShape (sp : PhysicsSpring) : ℕ × ℕ × ℚ × ℚ :=
  (sp.point1, sp.point2, sp.restLength, sp.stiffness)

lemma springStep_shape_eq (orc : MathOracle) (pts : List PhysicsPoint)
    {a b : PhysicsSpring} (h : springShape a = springShape b) :
    springStep orc pts a = springStep orc pts b := by
  obtain ⟨h1, h2, h3, h4⟩ : a.point1 = b.point1 ∧ a.point2 = b.point2 ∧
      a.restLength = b.restLength ∧ a.stiffness = b.stiffness := by
    simpa [springShape, Prod.ext_iff] using h
  unfold springStep
  rw [h1, h2, h3, h4]

lemma springsPass_shape_eq (orc : MathOracle) :
    ∀ (l1 l2 : List PhysicsSpring), l1.map springShape = l2.map springShape →
    ∀ pts : List PhysicsPoint, springsPass orc l1 pts = springsPass orc l2 pts := by
  intro l1
  induction l1 with
  | nil =>
    intro l2 h pts
    rw [show l2 = [] from List.map_eq_nil_iff.mp h.symm]
  | cons a t1 ih =>
    intro l2 h pts
    cases l2 with
    | nil => exact absurd h (by simp)
    | cons b t2 =>
      simp only [List.map_cons, List.cons.injEq] at h
      unfold springsPass
      rw [List.foldlM_cons, List.foldlM_cons, springStep_shape_eq orc pts h.1]
      cases springStep orc pts b with
      | none => rfl
      | some pts2 =>
        simp only [Option.bind_eq_bind, Option.some_bind]
        exact ih t2 h.2 pts2

/-- Claim C10 (confirmed): the `damping` field stored on each spring record
never influences `update` — two states identical except for the springs'
`damping` values produce identical point states (the damping coefficient the
code actually applies is the fixed constant `0.05`). -/
theorem C10_damping_field_unused (orc : MathOracle) (dt : ℚ) (s1 s2 : PhysicsState)
    (hp : s1.points = s2.points) (hc : s1.constraints = s2.constraints)
    (hw : s1.wind = s2.wind) (hg : s1.gravity = s2.gravity)
    (hcw : s1.canvasWidth = s2.canvasWidth) (hch : s1.canvasHeight = s2.canvasHeight)
    (hsp : s1.springs.map springShape = s2.springs.map springShape) :
    (update orc dt s1).map (fun s => s.points) = (update orc dt s2).map (fun s => s.points) := by
  have hup : ∀ (cs : List PhysicsConstraint) (wx wy g w hh : ℚ) (pts : List PhysicsPoint),
      updatePoints orc dt s1.springs cs wx wy g w hh pts =
      updatePoints orc dt s2.springs cs wx wy g w hh pts := by
    intro cs wx wy g w hh pts
    unfold updatePoints
    rw [springsPass_shape_eq orc s1.springs s2.springs hsp]
  unfold update
  rw [hp, hc, hw, hg, hcw, hch, hup]
  rw [Option.map_map, Option.map_map]
  rfl

/-- Witness states for `C10_damping_field_unused`: identical except the
spring damping field (`0.99` vs `0.5`). -/
def c10State1 : PhysicsState :=
  { c3State with springs := [⟨0, 1, 5, 1/10, 99/100⟩] }

/-- Second witness state, damping `0.5`. -/
def c10State2 : PhysicsState :=
  { c3State with springs := [⟨0, 1, 5, 1/10, 1/2⟩] }

/-- Witness for `C10_damping_field_unused` at concrete inputs. -/
theorem C10_damping_field_unused_witness :
    (update orcPhys 1 c10State1).map (fun s => s.points) =
      (update orcPhys 1 c10State2).map (fun s => s.points) :=
  C10_damping_field_unused orcPhys 1 c10State1 c10State2 rfl rfl rfl rfl rfl rfl rfl

/-! ## Claim C6: collision separation -/

/-- Oracle for the three-point collision counterexample: exact square roots at
the values that occur (81, 441/4, 1/4, 64). -/
def orc6 : MathOracle :=
  { sqrt := fun q => if q = 81 then 9 else if q = 441/4 then 21/2 else
      if q = 1/4 then 1/2 else if q = 64 then 8 else 0,
    cos := fun _ => 1, sin := fun _ => 0, atan2 := fun _ _ => 0, pi := 0 }

/-- A free unit-mass point at rest. -/
def mkFree (x y : ℚ) : PhysicsPoint :=
  { x := x, y := y, vx := 0, vy := 0, ax := 0, ay := 0, mass := 1, fixed := false }

/-- Claim C6 counterexample: with three points `(0,0), (9,0), (10,0)` (all
free), the in-place sweep first separates the pair `(0,1)` to distance 10,
then processing the pair `(1,2)` drags point 1 back: the final separation of
the pair `(0,1)` is `21/4 < 9`, strictly SMALLER than before the pass —
"separation strictly increases" is false on the code for states with more
than two points. -/
theorem C6_counterexample :
    (collisionPass orc6 [mkFree 0 0, mkFree 9 0, mkFree 10 0]).map (fun p => (p.x, p.y)) =
      [(-(1/2), 0), (19/4, 0), (59/4, 0)] ∧
    ((19/4 : ℚ) - (-(1/2))) * ((19/4 : ℚ) - (-(1/2))) <
      ((9 : ℚ) - 0) * ((9 : ℚ) - 0) := by
  constructor
  · norm_num [collisionPass, (show pairIndices 3 = [(0,1),(0,2),(1,2)] from rfl),
      collidePair, orc6, mkFree, List.foldl_cons, List.foldl_nil]
  · norm_num

/-- Claim C6 (amended): for a state with EXACTLY TWO points whose computed
separation `d` (a genuine square root: `d·d` equals the squared separation)
satisfies `0 < d < 10`, the collision pass displaces each non-fixed point
apart along the separation vector by half the overlap, fixed points do not
move, the squared separation strictly increases when at least one point is
free (to exactly `10²` when both are free), and a both-fixed pair is
unchanged.  (With three or more points, later pairs of the same in-place
sweep can strictly DECREASE a pair's separation — see the counterexample.) -/
theorem C6_collision_two (orc : MathOracle) (p1 p2 : PhysicsPoint) (d : ℚ)
    (hsq : orc.sqrt ((p2.x - p1.x) * (p2.x - p1.x) + (p2.y - p1.y) * (p2.y - p1.y)) = d)
    (hd2 : d * d = (p2.x - p1.x) * (p2.x - p1.x) + (p2.y - p1.y) * (p2.y - p1.y))
    (h0 : 0 < d) (h10 : d < 10) :
    (let fx := (p2.x - p1.x) / d * ((10 - d) / 2)
     let fy := (p2.y - p1.y) / d * ((10 - d) / 2)
     let q1x := if p1.fixed = true then p1.x else p1.x - fx
     let q1y := if p1.fixed = true then p1.y else p1.y - fy
     let q2x := if p2.fixed = true then p2.x else p2.x + fx
     let q2y := if p2.fixed = true then p2.y else p2.y + fy
     (collisionPass orc [p1, p2]).map (fun p => (p.x, p.y)) = [(q1x, q1y), (q2x, q2y)] ∧
     (¬(p1.fixed = true ∧ p2.fixed = true) →
       (p2.x - p1.x) * (p2.x - p1.x) + (p2.y - p1.y) * (p2.y - p1.y) <
         (q2x - q1x) * (q2x - q1x) + (q2y - q1y) * (q2y - q1y)) ∧
     (p1.fixed = false → p2.fixed = false →
       (q2x - q1x) * (q2x - q1x) + (q2y - q1y) * (q2y - q1y) = 100) ∧
     (p1.fixed = true → p2.fixed = true → collisionPass orc [p1, p2] = [p1, p2])) := by
  have hd : d ≠ 0 := ne_of_gt h0
  have hcp : collisionPass orc [p1, p2] = collidePair orc [p1, p2] 0 1 := rfl
  have hcpair : collidePair orc [p1, p2] 0 1 =
      [(if p1.fixed = true then p1 else
          { p1 with x := p1.x - (p2.x - p1.x) / d * ((10 - d) / 2),
                    y := p1.y - (p2.y - p1.y) / d * ((10 - d) / 2) }),
       (if p2.fixed = true then p2 else
          { p2 with x := p2.x + (p2.x - p1.x) / d * ((10 - d) / 2),
                    y := p2.y + (p2.y - p1.y) / d * ((10 - d) / 2) })] := by
    unfold collidePair
    simp only [List.getElem?_cons_zero, List.getElem?_cons_succ, hsq]
    rw [if_pos ⟨h10, h0⟩]
    simp only [List.set_cons_zero, List.set_cons_succ]
  refine ⟨?_, ?_, ?_, ?_⟩
  · rw [hcp, hcpair]
    rcases Bool.eq_false_or_eq_true p1.fixed with h1f | h1f <;>
      rcases Bool.eq_false_or_eq_true p2.fixed with h2f | h2f <;>
      simp [h1f, h2f]
  · intro hnb
    rcases Bool.eq_false_or_eq_true p1.fixed with h1f | h1f <;>
      rcases Bool.eq_false_or_eq_true p2.fixed with h2f | h2f <;>
      simp only [h1f, h2f, Bool.false_eq_true, if_false, if_true]
    · exact absurd ⟨h1f, h2f⟩ hnb
    · have key : (p2.x + (p2.x - p1.x) / d * ((10 - d) / 2) - p1.x) =
          (p2.x - p1.x) * ((d + 10) / (2 * d)) := by
        field_simp
        ring
      have key2 : (p2.y + (p2.y - p1.y) / d * ((10 - d) / 2) - p1.y) =
          (p2.y - p1.y) * ((d + 10) / (2 * d)) := by
        field_simp
        ring
      rw [key, key2]
      have hexp : (p2.x - p1.x) * ((d + 10) / (2 * d)) * ((p2.x - p1.x) * ((d + 10) / (2 * d))) +
          (p2.y - p1.y) * ((d + 10) / (2 * d)) * ((p2.y - p1.y) * ((d + 10) / (2 * d))) =
          (d + 10) * (d + 10) / 4 := by
        have h1 : (p2.x - p1.x) * ((d + 10) / (2 * d)) * ((p2.x - p1.x) * ((d + 10) / (2 * d))) +
            (p2.y - p1.y) * ((d + 10) / (2 * d)) * ((p2.y - p1.y) * ((d + 10) / (2 * d))) =
            (d + 10) * (d + 10) / (2 * d * (2 * d)) *
              ((p2.x - p1.x) * (p2.x - p1.x) + (p2.y - p1.y) * (p2.y - p1.y)) := by
          ring
        rw [h1, ← hd2]
        field_simp
        ring
      rw [hexp, ← hd2]
      rw [lt_div_iff₀ (by norm_num : (0:ℚ) < 4)]
      nlinarith [h0, h10]
    · have key : (p2.x - (p1.x - (p2.x - p1.x) / d * ((10 - d) / 2))) =
          (p2.x - p1.x) * ((d + 10) / (2 * d)) := by
        field_simp
        ring
      have key2 : (p2.y - (p1.y - (p2.y - p1.y) / d * ((10 - d) / 2))) =
          (p2.y - p1.y) * ((d + 10) / (2 * d)) := by
        field_simp
        ring
      rw [key, key2]
      have hexp : (p2.x - p1.x) * ((d + 10) / (2 * d)) * ((p2.x - p1.x) * ((d + 10) / (2 * d))) +
          (p2.y - p1.y) * ((d + 10) / (2 * d)) * ((p2.y - p1.y) * ((d + 10) / (2 * d))) =
          (d + 10) * (d + 10) / 4 := by
        have h1 : (p2.x - p1.x) * ((d + 10) / (2 * d)) * ((p2.x - p1.x) * ((d + 10) / (2 * d))) +
            (p2.y - p1.y) * ((d + 10) / (2 * d)) * ((p2.y - p1.y) * ((d + 10) / (2 * d))) =
            (d + 10) * (d + 10) / (2 * d * (2 * d)) *
              ((p2.x - p1.x) * (p2.x - p1.x) + (p2.y - p1.y) * (p2.y - p1.y)) := by
          ring
        rw [h1, ← hd2]
        field_simp
        ring
      rw [hexp, ← hd2]
      rw [lt_div_iff₀ (by norm_num : (0:ℚ) < 4)]
      nlinarith [h0, h10]
    · have key : (p2.x + (p2.x - p1.x) / d * ((10 - d) / 2) -
            (p1.x - (p2.x - p1.x) / d * ((10 - d) / 2))) = (p2.x - p1.x) * (10 / d) := by
        field_simp
        ring
      have key2 : (p2.y + (p2.y - p1.y) / d * ((10 - d) / 2) -
            (p1.y - (p2.y - p1.y) / d * ((10 - d) / 2))) = (p2.y - p1.y) * (10 / d) := by
        field_simp
        ring
      rw [key, key2]
      have hdd : d * d ≠ 0 := mul_ne_zero hd hd
      have hexp : (p2.x - p1.x) * (10 / d) * ((p2.x - p1.x) * (10 / d)) +
          (p2.y - p1.y) * (10 / d) * ((p2.y - p1.y) * (10 / d)) = 100 := by
        have h1 : (p2.x - p1.x) * (10 / d) * ((p2.x - p1.x) * (10 / d)) +
            (p2.y - p1.y) * (10 / d) * ((p2.y - p1.y) * (10 / d)) =
            100 / (d * d) * ((p2.x - p1.x) * (p2.x - p1.x) + (p2.y - p1.y) * (p2.y - p1.y)) := by
          ring
        rw [h1, ← hd2, div_mul_cancel₀ _ hdd]
      rw [hexp, ← hd2]
      nlinarith [h0, h10]
  · intro h1f h2f
    simp only [h1f, h2f, Bool.false_eq_true, if_false]
    have key : (p2.x + (p2.x - p1.x) / d * ((10 - d) / 2) -
          (p1.x - (p2.x - p1.x) / d * ((10 - d) / 2))) = (p2.x - p1.x) * (10 / d) := by
      field_simp
      ring
    have key2 : (p2.y + (p2.y - p1.y) / d * ((10 - d) / 2) -
          (p1.y - (p2.y - p1.y) / d * ((10 - d) / 2))) = (p2.y - p1.y) * (10 / d) := by
      field_simp
      ring
    rw [key, key2]
    have hdd : d * d ≠ 0 := mul_ne_zero hd hd
    have hexp : (p2.x - p1.x) * (10 / d) * ((p2.x - p1.x) * (10 / d)) +
        (p2.y - p1.y) * (10 / d) * ((p2.y - p1.y) * (10 / d)) = 100 := by
      have h1 : (p2.x - p1.x) * (10 / d) * ((p2.x - p1.x) * (10 / d)) +
          (p2.y - p1.y) * (10 / d) * ((p2.y - p1.y) * (10 / d)) =
          100 / (d * d) * ((p2.x - p1.x) * (p2.x - p1.x) + (p2.y - p1.y) * (p2.y - p1.y)) := by
        ring
      rw [h1, ← hd2, div_mul_cancel₀ _ hdd]
    exact hexp
  · intro h1f h2f
    rw [hcp, hcpair]
    simp [h1f, h2f]

/-- Witness for `C6_collision_two` at a concrete input: two free points 8
apart on the x-axis. -/
theorem C6_collision_two_witness :
    (collisionPass orc6 [mkFree 100 100, mkFree 108 100]).map (fun p => (p.x, p.y)) =
      [(99, 100), (109, 100)] ∧
    ((109 : ℚ) - 99) * ((109 : ℚ) - 99) = 100 := by
  have h := C6_collision_two orc6 (mkFree 100 100) (mkFree 108 100) 8
    (by norm_num [orc6, mkFree]) (by norm_num [mkFree]) (by norm_num) (by norm_num)
  constructor
  · rw [h.1]
    norm_num [mkFree]
  · norm_num

/-! ## Claim C7: isolated point velocity decay -/

/-- The boundary clamps of the next integration step do not fire for this
point (its integrated candidate position stays inside the canvas margins). -/
def pointClampFree (w h : ℚ) (p : PhysicsPoint) : Bool :=
  if 5 ≤ p.x + p.vx * (999/1000) ∧ p.x + p.vx * (999/1000) ≤ w - 5 ∧
      5 ≤ p.y + p.vy * (999/1000) ∧ p.y + p.vy * (999/1000) ≤ h - 5 then true else false

/-- After `k` steps, every point of the state is clamp-free for the next step. -/
def clampFreeAt (orc : MathOracle) (k : ℕ) (s : PhysicsState) : Bool :=
  match updateN orc 1 k s with
  | some sk => sk.points.all (pointClampFree sk.canvasWidth sk.canvasHeight)
  | none => true

lemma updateN_succ (orc : MathOracle) (dt : ℚ) (n : ℕ) (s : PhysicsState) :
    updateN orc dt (n + 1) s = (update orc dt s).bind (updateN orc dt n) := rfl

lemma update_single_free (orc : MathOracle) (s : PhysicsState) (p : PhysicsPoint)
    (hpts : s.points = [p]) (hsp : s.springs = []) (hc : s.constraints = [])
    (hg : s.gravity = 0) (hw : s.wind = (0, 0)) :
    update orc 1 s =
      some { s with points := [integratePoint 1 s.canvasWidth s.canvasHeight (resetAccel p)] } := by
  unfold update updatePoints
  rw [hpts, hsp, hc, hg, hw]
  have h1 : gravityPass 0 ([p].map resetAccel) = [resetAccel p] := by
    unfold gravityPass
    rw [if_neg (lt_irrefl 0)]
    simp
  have h2 : windPass (0, 0).1 (0, 0).2 [resetAccel p] = [resetAccel p] := by
    unfold windPass
    rw [if_neg (by simp)]
  rw [h1, h2]
  rfl

/-- The advanced point of one force-free clamp-free step. -/
def freeStep (p : PhysicsPoint) : PhysicsPoint :=
  { p with
    ax := 0, ay := 0,
    vx := p.vx * (999/1000), vy := p.vy * (999/1000),
    x := p.x + p.vx * (999/1000), y := p.y + p.vy * (999/1000) }

lemma integratePoint_noClamp (w h : ℚ) (p : PhysicsPoint) (hfree : p.fixed = false)
    (hcf : pointClampFree w h p = true) :
    integratePoint 1 w h (resetAccel p) = freeStep p := by
  have hb : 5 ≤ p.x + p.vx * (999/1000) ∧ p.x + p.vx * (999/1000) ≤ w - 5 ∧
      5 ≤ p.y + p.vy * (999/1000) ∧ p.y + p.vy * (999/1000) ≤ h - 5 := by
    unfold pointClampFree at hcf
    by_cases hq : 5 ≤ p.x + p.vx * (999/1000) ∧ p.x + p.vx * (999/1000) ≤ w - 5 ∧
        5 ≤ p.y + p.vy * (999/1000) ∧ p.y + p.vy * (999/1000) ≤ h - 5
    · exact hq
    · rw [if_neg hq] at hcf
      exact absurd hcf (by simp)
  obtain ⟨hx1, hx2, hy1, hy2⟩ := hb
  unfold integratePoint resetAccel freeStep
  simp only [hfree, Bool.false_eq_true, if_false, mul_one, add_zero]
  split_ifs with h1 h2 h3 h4 <;> first | (exfalso; linarith) | simp

/-- Claim C7 (amended): a single non-fixed point with no forces (gravity 0,
wind 0, no springs, no constraints, no other points) whose trajectory never
touches the boundary clamps evolves, over `n` steps, by
`v_n = v_0 · 0.999^n` on each velocity component (each step multiplies the
velocity EXACTLY by the air-resistance factor `0.999`) with the conserved
quantity `x_n + 999·v_n = x_0 + 999·v_0`; hence `|v|` decays geometrically
and monotonically to `0`, and the position converges (to `x_0 + 999·v_0`).
The boundary clamps are excluded by hypothesis: a clamped step additionally
multiplies the clamped component by `−0.3` (see the counterexample). -/
theorem C7_velocity_decay (orc : MathOracle) (s : PhysicsState) (p : PhysicsPoint) (n : ℕ)
    (hpts : s.points = [p]) (hfree : p.fixed = false) (hsp : s.springs = [])
    (hc : s.constraints = []) (hg : s.gravity = 0) (hw : s.wind = (0, 0))
    (H : ∀ k, k < n → clampFreeAt orc k s = true) :
    ∃ pn : PhysicsPoint,
      updateN orc 1 n s = some { s with points := [pn] } ∧
      pn.fixed = false ∧
      pn.vx = p.vx * (999/1000)^n ∧ pn.vy = p.vy * (999/1000)^n ∧
      pn.x + 999 * pn.vx = p.x + 999 * p.vx ∧ pn.y + 999 * pn.vy = p.y + 999 * p.vy := by
  induction n generalizing s p with
  | zero =>
    refine ⟨p, ?_, hfree, by ring, by ring, rfl, rfl⟩
    rw [← hpts]
    rfl
  | succ n ih =>
    have h0 := H 0 (Nat.succ_pos n)
    have hcf : pointClampFree s.canvasWidth s.canvasHeight p = true := by
      unfold clampFreeAt at h0
      have h0a : s.points.all (pointClampFree s.canvasWidth s.canvasHeight) = true := h0
      rw [hpts] at h0a
      simpa using h0a
    have hstep := update_single_free orc s p hpts hsp hc hg hw
    rw [integratePoint_noClamp s.canvasWidth s.canvasHeight p hfree hcf] at hstep
    have hshift : ∀ k, k < n → clampFreeAt orc k { s with points := [freeStep p] } = true := by
      intro k hk
      have := H (k + 1) (Nat.succ_lt_succ hk)
      unfold clampFreeAt at this ⊢
      rw [show updateN orc 1 (k + 1) s =
          updateN orc 1 k { s with points := [freeStep p] } by
        rw [updateN_succ, hstep]
        rfl] at this
      exact this
    obtain ⟨pn, h1n, h2n, h3n, h4n, h5n, h6n⟩ :=
      ih { s with points := [freeStep p] } (freeStep p) rfl (by simpa [freeStep] using hfree)
        hsp hc hg hw hshift
    refine ⟨pn, ?_, h2n, ?_, ?_, ?_, ?_⟩
    · rw [show updateN orc 1 (n + 1) s =
          updateN orc 1 n { s with points := [freeStep p] } by
        rw [updateN_succ, hstep]
        rfl]
      rw [h1n]
    · rw [h3n]
      show p.vx * (999/1000) * (999/1000)^n = p.vx * (999/1000)^(n + 1)
      ring
    · rw [h4n]
      show p.vy * (999/1000) * (999/1000)^n = p.vy * (999/1000)^(n + 1)
      ring
    · rw [h5n]
      show p.x + p.vx * (999/1000) + 999 * (p.vx * (999/1000)) = p.x + 999 * p.vx
      ring
    · rw [h6n]
      show p.y + p.vy * (999/1000) + 999 * (p.vy * (999/1000)) = p.y + 999 * p.vy
      ring

/-- Claim C7 counterexample input: a free point about to cross the right
boundary (no gravity, wind, springs, constraints or other points). -/
def c7State : PhysicsState :=
  { points := [{ x := 790, y := 200, vx := 10, vy := 0, ax := 0, ay := 0,
                 mass := 1, fixed := false }],
    springs := [], constraints := [], wind := (0, 0), gravity := 0,
    canvasWidth := 800, canvasHeight := 600 }

/-- Claim C7 counterexample: with no forces at all, a step that crosses the
boundary multiplies the velocity by `0.999 · (−0.3)`, not "only by 0.999":
the resulting `vx` is `−2.997 ≠ 10 · 0.999`. -/
theorem C7_counterexample :
    (update orcPhys 1 c7State).map (fun s => s.points.map (fun p => (p.vx, p.x))) =
      some [(-(2997/1000), 795)] ∧
    (-(2997/1000) : ℚ) ≠ 10 * (999/1000) := by
  constructor
  · norm_num [update, updatePoints, springsPass, constraintsPass, collisionPass,
      (show pairIndices 1 = [] from rfl), gravityPass, windPass, resetAccel,
      integratePoint, orcPhys, c7State]
  · norm_num

/-- Witness point for `C7_velocity_decay`: nonzero initial accelerations to
exercise the reset. -/
def c7wPoint : PhysicsPoint :=
  { x := 400, y := 300, vx := 10, vy := -10, ax := 3, ay := 4, mass := 1, fixed := false }

/-- Witness state for `C7_velocity_decay`. -/
def c7wState : PhysicsState :=
  { points := [c7wPoint], springs := [], constraints := [], wind := (0, 0), gravity := 0,
    canvasWidth := 800, canvasHeight := 600 }

/-- Witness for `C7_velocity_decay` at a concrete input (two steps). -/
theorem C7_velocity_decay_witness :
    (updateN orcPhys 1 2 c7wState).map (fun s => s.points.map (fun p => (p.vx, p.x + 999 * p.vx))) =
      some [(10 * (999/1000)^2, 400 + 999 * 10)] := by
  have H : ∀ k, k < 2 → clampFreeAt orcPhys k c7wState = true := by
    intro k hk
    interval_cases k
    · show c7wState.points.all (pointClampFree c7wState.canvasWidth c7wState.canvasHeight) = true
      norm_num [c7wState, c7wPoint, pointClampFree]
    · have hu : update orcPhys 1 c7wState = some { c7wState with points := [freeStep c7wPoint] } := by
        rw [update_single_free orcPhys c7wState c7wPoint rfl rfl rfl rfl rfl,
            integratePoint_noClamp _ _ _ rfl (by norm_num [pointClampFree, c7wPoint, c7wState])]
      simp only [clampFreeAt, show updateN orcPhys 1 1 c7wState =
          some { c7wState with points := [freeStep c7wPoint] } by rw [updateN_succ, hu]; rfl]
      norm_num [c7wState, c7wPoint, pointClampFree, freeStep]
  obtain ⟨pn, h1, _, h3, _, h5, _⟩ :=
    C7_velocity_decay orcPhys c7wState c7wPoint 2 rfl rfl rfl rfl rfl rfl H
  rw [h1]
  simp only [Option.map_some', List.map_cons, List.map_nil]
  rw [h5, h3]
  rfl

/-! ## Growth Engine infrastructure: RNG stream preservation and counting -/

lemma next_2_f (g : Rng) : g.next.2.f = g.f := rfl

lemma getRandomColor_f (gen : ℕ) (st : GrowthSettings) (g : Rng) :
    (getRandomColor gen st g).2.f = g.f := by
  unfold getRandomColor
  cases st.drawingMode
  · split_ifs <;> rfl
  · rfl
  · rfl

lemma mkSeed_f (orc : MathOracle) (now : ℚ) (st : GrowthSettings)
    (lm av sa : ℚ) (pt : Point) (g : Rng) :
    (mkSeed orc now st lm av sa pt g).2.f = g.f := by
  unfold mkSeed
  simp only [Rng.next, getRandomColor_f]

lemma mkChild_f (orc : MathOracle) (st : GrowthSettings) (now : ℚ) (b : Branch)
    (na nl sx sy : ℚ) (g : Rng) :
    (mkChild orc st now b na nl sx sy g).2.f = g.f := by
  unfold mkChild
  simp only [Rng.next, getRandomColor_f]

/-- Fold with a `(list, rng)` accumulator: each step appends exactly `c`
elements and preserves a stream invariant. -/
lemma foldl_rng_count {α : Type} (step : (List Branch × Rng) → α → (List Branch × Rng))
    (P : Rng → Prop) (c : ℕ)
    (hstep : ∀ bs g a, P g → (step (bs, g) a).1.length = bs.length + c ∧ P (step (bs, g) a).2) :
    ∀ (l : List α) (bs : List Branch) (g : Rng), P g →
      (l.foldl step (bs, g)).1.length = bs.length + c * l.length ∧
      P (l.foldl step (bs, g)).2 := by
  intro l
  induction l with
  | nil => intro bs g hg; exact ⟨by simp, hg⟩
  | cons x xs ih =>
    intro bs g hg
    obtain ⟨h1, h2⟩ := hstep bs g x hg
    have hrec := ih (step (bs, g) x).1 (step (bs, g) x).2 h2
    rw [List.foldl_cons]
    constructor
    · have e : (xs.foldl step (step (bs, g) x)).1.length =
          (step (bs, g) x).1.length + c * xs.length := hrec.1
      rw [e, h1, List.length_cons]
      ring
    · exact hrec.2

lemma seedInner_count (orc : MathOracle) (now : ℚ) (st : GrowthSettings)
    (lm av sa : ℚ) (pt : Point) (n : ℕ) (F : ℕ → ℚ) :
    ∀ (bs : List Branch) (g : Rng), g.f = F →
      (seedInner orc now st lm av sa pt n (bs, g)).1.length = bs.length + n ∧
      (seedInner orc now st lm av sa pt n (bs, g)).2.f = F := by
  intro bs g hg
  unfold seedInner
  have h := foldl_rng_count
    (fun acc2 _ =>
      let z := mkSeed orc now st lm av sa pt acc2.2
      (acc2.1 ++ [z.1], z.2))
    (fun g' => g'.f = F) 1
    (by
      intro bs' g' a hg'
      constructor
      · show (bs' ++ [(mkSeed orc now st lm av sa pt g').1]).length = bs'.length + 1
        simp
      · show (mkSeed orc now st lm av sa pt g').2.f = F
        rw [mkSeed_f]
        exact hg')
    (List.range n) bs g hg
  simpa using h

/-- `generateBranches` in electric mode seeds exactly three branches per
sampled stroke point when every RNG draw `r` satisfies `⌊r·3⌋ + 1 = 3`. -/
lemma generateBranches_electric_count (orc : MathOracle) (now : ℚ) (pts : List Point)
    (st : GrowthSettings) (hmode : st.drawingMode = .electric) (F : ℕ → ℚ) (g : Rng)
    (hg : g.f = F) (hF : ∀ k, (⌊F k * 3⌋ + 1).toNat = 3) (h2 : 2 ≤ pts.length) :
    (generateBranches orc now pts st g).1.length =
      3 * (max 1 ⌊(pts.length : ℚ) * min (st.branchComplexity / 100) (1/4) * (2/25)⌋).toNat := by
  have hlt : ¬ pts.length < 2 := by omega
  simp only [generateBranches, hmode, seedModeParams]
  rw [if_neg hlt]
  refine ((foldl_rng_count _ (fun g2 => g2.f = F) 3 ?_ _ [] g hg).1).trans ?_
  · intro bs' g' a hg'
    have hnext : g'.next.2.f = F := hg'
    have hr : g'.next.1 = F g'.k := congrFun hg' g'.k
    refine ⟨?_, ?_⟩
    · exact ((seedInner_count orc now st _ _ _ _ _ F bs' g'.next.2 hnext).1).trans
        (by simp [hr, hF g'.k])
    · exact (seedInner_count orc now st _ _ _ _ _ F bs' g'.next.2 hnext).2
  · simp

/-- Witness for `C4_out_of_range` at concrete inputs. -/
theorem C4_out_of_range_witness :
    addSpring orcPhys c4State 0 7 (1/10) (99/100) = c4State ∧
    update orcPhys 1 c4State = none := by
  constructor
  · exact C4_out_of_range.1 orcPhys c4State 0 7 (1/10) (99/100)
      (Or.inr (by rw [show c4State.points.length = 1 from rfl]; omega))
  · exact C4_out_of_range.2.2.1 orcPhys 1 c4State
      { ctype := .distance, points := [0, 5], targetValue := 10, strength := 1/2 } 0 5
      (by rw [show c4State.constraints =
            [{ ctype := .distance, points := [0, 5], targetValue := 10, strength := 1/2 }] from rfl]
          exact List.mem_singleton.mpr rfl) rfl rfl
      (Or.inr (by rw [show c4State.points.length = 1 from rfl]; omega))

/-! ## Claim C1: the 500-branch population cap -/

/-- Electric-mode settings with the maximum UI branch complexity (slider 5–25,
`Header.tsx`). -/
def stE : GrowthSettings := ⟨25, "#00E0FF", .electric, true⟩

/-- A random stream that always returns `9/10`. -/
def rng9 : Rng := ⟨fun _ => 9/10, 0⟩

/-- `generateBranches` has no population cap: an 8350-point stroke at
electric mode with branch complexity 25 seeds 501 branches when every
`Math.random()` draw returns `0.9`. -/
theorem C1_counterexample :
    500 < (generateBranches orcPhys 0 (List.replicate 8350 (⟨0, 0⟩ : Point)) stE rng9).1.length := by
  have h := generateBranches_electric_count orcPhys 0 (List.replicate 8350 (⟨0, 0⟩ : Point))
    stE rfl (fun _ => 9/10) rng9 rfl
    (fun k => by norm_num [show Int.toNat 3 = 3 from rfl])
    (by rw [List.length_replicate]; omega)
  rw [h]
  norm_num [stE, min_def, max_def, show Int.toNat 167 = 167 from rfl]

lemma foldl_length_le {α β : Type} (step : (List β × Rng) → α → List β × Rng)
    (hstep : ∀ acc a, (step acc a).1.length ≤ max acc.1.length 500) :
    ∀ (l : List α) (acc : List β × Rng), (l.foldl step acc).1.length ≤ max acc.1.length 500 := by
  intro l
  induction l with
  | nil => intro acc; exact le_max_left _ _
  | cons x xs ih =>
    intro acc
    rw [List.foldl_cons]
    exact (ih (step acc x)).trans (max_le (hstep acc x) (le_max_right _ _))

/-- The child-spawning loop never grows the list past 500 (each append is
guarded by `newBranches.length < 500`). -/
lemma spawnChildren_length_le (orc : MathOracle) (st : GrowthSettings) (now : ℚ)
    (b1 : Branch) (numNew : ℕ) (acc : List Branch × Rng) :
    (spawnChildren orc st now b1 numNew acc).1.length ≤ max acc.1.length 500 := by
  unfold spawnChildren
  refine foldl_length_le _ ?_ _ acc
  intro acc2 a
  simp only [spawnStep]
  by_cases h : acc2.1.length < 500
  · rw [if_pos h]
    refine le_max_of_le_right ?_
    simp only [List.length_append, List.length_singleton]
    omega
  · rw [if_neg h]
    exact le_max_of_le_left le_rfl

/-- One `forEach` body appends the processed branch and at most caps at 500. -/
lemma animStep_length_le (orc : MathOracle) (gs : ℚ) (st : GrowthSettings) (hc : Bool)
    (now : ℚ) (acc : List Branch × List GrowthEvent × Rng) (b : Branch) :
    (animStep orc gs st hc now acc b).1.length ≤ max (acc.1.length + 1) 500 := by
  simp only [animStep]
  repeat' split
  all_goals try (refine le_max_of_le_left ?_ ; simp ; done)
  all_goals show ((spawnChildren _ _ _ _ _ (acc.1 ++ [_], _)).1.set _ _).length ≤ max (acc.1.length + 1) 500
  all_goals rw [List.length_set]
  all_goals exact (spawnChildren_length_le _ _ _ _ _ _).trans (by simp)

lemma animFold_length_le (orc : MathOracle) (gs : ℚ) (st : GrowthSettings) (hc : Bool)
    (now : ℚ) :
    ∀ (l : List Branch) (acc : List Branch × List GrowthEvent × Rng),
      (l.foldl (animStep orc gs st hc now) acc).1.length ≤ max acc.1.length 500 + l.length := by
  intro l
  induction l with
  | nil =>
    intro acc
    simp
  | cons x xs ih =>
    intro acc
    rw [List.foldl_cons]
    have h1 := animStep_length_le orc gs st hc now acc x
    have h2 := ih (animStep orc gs st hc now acc x)
    refine h2.trans ?_
    simp only [List.length_cons]
    omega

/-- **C1** (amended): `animateBranches` truncates its *input* to 500 branches
(`slice(0, 500)`) but its output is only bounded by 500 plus the number of
processed branches — one net new branch per processed branch is always
possible once the cap is hit, since input branches are re-appended
unconditionally.  `generateBranches` enforces no cap at all
(`C1_counterexample`). -/
theorem C1_population_bound (orc : MathOracle) (branches : List Branch) (growthSpeed : ℚ)
    (st : GrowthSettings) (hasCallback : Bool) (now : ℚ) (g : Rng) :
    (animateBranches orc branches growthSpeed st hasCallback now g).1.length ≤
      500 + (branches.take 500).length ∧
    (animateBranches orc branches growthSpeed st hasCallback now g).1.length ≤ 1000 := by
  have hb := animFold_length_le orc growthSpeed st hasCallback now (branches.take 500)
    (([] : List Branch), ([] : List GrowthEvent), g)
  have ht : (branches.take 500).length ≤ 500 := by
    rw [List.length_take]
    omega
  have hm : (animateBranches orc branches growthSpeed st hasCallback now g).1.length =
      ((branches.take 500).foldl (animStep orc growthSpeed st hasCallback now)
        (([] : List Branch), ([] : List GrowthEvent), g)).1.length := by
    show (((branches.take 500).foldl (animStep orc growthSpeed st hasCallback now)
      (([] : List Branch), ([] : List GrowthEvent), g)).1.map (pulseOne orc st now)).length = _
    rw [List.length_map]
  rw [hm]
  simp only [List.length_nil] at hb
  constructor
  · exact hb.trans (by omega)
  · exact hb.trans (by omega)

/-! ## Claim C2: completion-callback invocations -/

/-- The callback invocation (if any) that `animateBranches` emits for one
processed branch: the `onParticleGeneration` call of source lines 984–996,
guarded by `settings.particleEffects && onParticleGeneration` and by the
progress crossing `maxProgress` at this very call. -/
def eventOf (orc : MathOracle) (growthSpeed : ℚ) (st : GrowthSettings) (hasCallback : Bool)
    (now : ℚ) (b : Branch) : Option GrowthEvent :=
  let speedMultiplier := growthSpeed / 50
  let grew := b.progress < b.maxProgress ∧ 16 < now - b.lastGrowth
  let b1 := if grew then
      { b with progress := min b.maxProgress (b.progress + speedMultiplier), lastGrowth := now }
    else b
  if grew ∧ st.particleEffects ∧ hasCallback ∧ b.maxProgress ≤ b1.progress ∧
      b.progress < b.maxProgress then
    some (b.startX + orc.cos b.angle * b.length, b.startY + orc.sin b.angle * b.length, b.color)
  else none

lemma animStep_events (orc : MathOracle) (gs : ℚ) (st : GrowthSettings) (hc : Bool)
    (now : ℚ) (acc : List Branch × List GrowthEvent × Rng) (b : Branch) :
    (animStep orc gs st hc now acc b).2.1 =
      acc.2.1 ++ (eventOf orc gs st hc now b).toList := by
  simp only [animStep, eventOf]
  repeat' split
  all_goals simp

lemma animFold_events (orc : MathOracle) (gs : ℚ) (st : GrowthSettings) (hc : Bool)
    (now : ℚ) :
    ∀ (l : List Branch) (acc : List Branch × List GrowthEvent × Rng),
      (l.foldl (animStep orc gs st hc now) acc).2.1 =
        acc.2.1 ++ l.filterMap (eventOf orc gs st hc now) := by
  intro l
  induction l with
  | nil => intro acc; simp
  | cons x xs ih =>
    intro acc
    rw [List.foldl_cons, ih, animStep_events]
    cases h : eventOf orc gs st hc now x <;> simp [h, List.filterMap_cons]

/-- **C2** (amended): the completion callback does *not* fire exactly once per
branch.  The events of one `animateBranches` call are exactly the per-branch
`eventOf` results over the (truncated) input; when `particleEffects` is off or
no callback is passed, *no* event ever fires (even though branches still
complete, `C2_counterexample`); with both enabled, a branch fires exactly at a
call where its progress crosses `maxProgress`. -/
theorem C2_callback_events (orc : MathOracle) (branches : List Branch) (gs : ℚ)
    (st : GrowthSettings) (hc : Bool) (now : ℚ) (g : Rng) :
    (animateBranches orc branches gs st hc now g).2.1 =
      (branches.take 500).filterMap (eventOf orc gs st hc now) ∧
    ((st.particleEffects = false ∨ hc = false) →
      (animateBranches orc branches gs st hc now g).2.1 = []) ∧
    (∀ b, st.particleEffects = true → hc = true →
      eventOf orc gs st hc now b =
        (if b.progress < b.maxProgress ∧ 16 < now - b.lastGrowth ∧
            b.maxProgress ≤ b.progress + gs / 50 then
          some (b.startX + orc.cos b.angle * b.length,
            b.startY + orc.sin b.angle * b.length, b.color)
        else none)) := by
  have hmain : (animateBranches orc branches gs st hc now g).2.1 =
      (branches.take 500).filterMap (eventOf orc gs st hc now) := by
    show ((branches.take 500).foldl (animStep orc gs st hc now)
      (([] : List Branch), ([] : List GrowthEvent), g)).2.1 = _
    rw [animFold_events]
    simp
  refine ⟨hmain, ?_, ?_⟩
  · intro hoff
    rw [hmain]
    have hnone : ∀ b, eventOf orc gs st hc now b = none := by
      intro b
      simp only [eventOf]
      rw [if_neg]
      rintro ⟨-, hpe, hhc, -⟩
      rcases hoff with h | h
      · rw [h] at hpe; exact Bool.false_ne_true hpe
      · rw [h] at hhc; exact Bool.false_ne_true hhc
    simp [List.filterMap_eq_nil_iff, hnone]
  · intro b hpe hhc
    simp only [eventOf]
    by_cases hg : b.progress < b.maxProgress ∧ 16 < now - b.lastGrowth
    · rw [if_pos hg]
      by_cases hcr : b.maxProgress ≤ b.progress + gs / 50
      · rw [if_pos ⟨hg, hpe, hhc, by simp only []; exact le_min le_rfl hcr, hg.1⟩,
          if_pos ⟨hg.1, hg.2, hcr⟩]
      · rw [if_neg, if_neg]
        · rintro ⟨-, -, h⟩; exact hcr h
        · rintro ⟨-, -, -, hmin, -⟩
          exact hcr (le_trans hmin (min_le_right _ _))
    · rw [if_neg hg, if_neg, if_neg]
      · rintro ⟨h1, h2, -⟩; exact hg ⟨h1, h2⟩
      · rintro ⟨hgg, -⟩; exact hg hgg

/-- Neural-mode settings with particle effects *disabled*. -/
def stNoFx : GrowthSettings := ⟨25, "#00E0FF", .neural, false⟩

/-- A generation-3 branch one step away from completion. -/
def bC2 : Branch := ⟨100, 100, 110, 100, 0, 10, 3, 59, 60, "#00E0FF", 8/10, 0⟩

/-- The all-zero random stream. -/
def rng0 : Rng := ⟨fun _ => 0, 0⟩

/-- C2 counterexample: with `particleEffects` off, a branch completes
(progress reaches `maxProgress` at this very call) yet the callback fires
zero times — not exactly once. -/
theorem C2_counterexample :
    (animateBranches orcPhys [bC2] 50 stNoFx true 100 rng0).2.1 = [] ∧
    (animateBranches orcPhys [bC2] 50 stNoFx true 100 rng0).1.map
      (fun b => (b.progress, b.maxProgress)) = [(60, 60)] := by
  constructor <;>
    norm_num [animateBranches, animStep, pulseOne, animModeParams, stNoFx, bC2, rng0,
      jsMod, jsTrunc, orcPhys]

/-- Witness for `C2_callback_events` at concrete inputs. -/
theorem C2_callback_events_witness :
    (animateBranches orcPhys [] 50 stNoFx false 100 rng0).2.1 = [] ∧
    eventOf orcPhys 50 stE true 100 bC2 =
      (if bC2.progress < bC2.maxProgress ∧ 16 < 100 - bC2.lastGrowth ∧
          bC2.maxProgress ≤ bC2.progress + 50 / 50 then
        some (bC2.startX + orcPhys.cos bC2.angle * bC2.length,
          bC2.startY + orcPhys.sin bC2.angle * bC2.length, bC2.color)
      else none) :=
  ⟨(C2_callback_events orcPhys [] 50 stNoFx false 100 rng0).2.1 (Or.inl rfl),
   (C2_callback_events orcPhys [] 50 stE true 100 rng0).2.2 bC2 rfl rfl⟩

/-! ## Claims C8 and C9: classification of the branches after one `animateBranches` call -/

/-- `c` is the in-place update of input branch `b` performed by one
`animateBranches` call: identical geometry, generation, `maxProgress` and
color; progress either untouched or advanced by `growthSpeed/50` and clamped
at `maxProgress`.  (Opacity and `lastGrowth` are deliberately unconstrained:
the pulse effect rewrites opacity and a spawn rewrites `lastGrowth`.) -/
def UpdatedFrom (gs : ℚ) (b c : Branch) : Prop :=
  c.startX = b.startX ∧ c.startY = b.startY ∧ c.endX = b.endX ∧ c.endY = b.endY ∧
  c.angle = b.angle ∧ c.length = b.length ∧ c.generation = b.generation ∧
  c.maxProgress = b.maxProgress ∧ c.color = b.color ∧
  (c.progress = b.progress ∨ c.progress = min b.maxProgress (b.progress + gs / 50))

/-- `c` is a child spawned from parent `b` during one `animateBranches` call,
with the exact field formulas of the source object literal (lines 1005–1018):
origin at the parent's endpoint, generation one deeper, random angle
deviation, length factor in `[0.6, 0.9)`, fresh progress `0`,
`maxProgress = 40 + rand·30`, the opacity fade formula, and
`lastGrowth = now + rand·1000`. -/
def ChildOf (orc : MathOracle) (st : GrowthSettings) (now : ℚ) (b c : Branch) : Prop :=
  c.generation = b.generation + 1 ∧
  c.startX = b.startX + orc.cos b.angle * b.length ∧
  c.startY = b.startY + orc.sin b.angle * b.length ∧
  (∃ r, 0 ≤ r ∧ r < 1 ∧ c.angle = b.angle +
    (if st.drawingMode = .organic then (r - 1/2) * orc.pi * (2/5)
     else (r - 1/2) * orc.pi * (3/5))) ∧
  (∃ r, 0 ≤ r ∧ r < 1 ∧ c.length = b.length * (6/10 + r * (3/10))) ∧
  c.progress = 0 ∧
  (∃ r, 0 ≤ r ∧ r < 1 ∧ c.maxProgress = 40 + r * 30) ∧
  c.opacity = max (3/10) (b.opacity - (b.generation : ℚ) * (15/100)) ∧
  (∃ r, 0 ≤ r ∧ r < 1 ∧ c.lastGrowth = now + r * 1000) ∧
  c.endX = c.startX + orc.cos c.angle * c.length ∧
  c.endY = c.startY + orc.sin c.angle * c.length

lemma spawnChildren_mem (orc : MathOracle) (st : GrowthSettings) (now : ℚ) (b1 : Branch)
    (numNew : ℕ) (acc : List Branch × Rng) (F : ℕ → ℚ) (hF : ∀ k, 0 ≤ F k ∧ F k < 1)
    (hf : acc.2.f = F) :
    (spawnChildren orc st now b1 numNew acc).2.f = F ∧
    ∀ c ∈ (spawnChildren orc st now b1 numNew acc).1,
      c ∈ acc.1 ∨ ChildOf orc st now b1 c := by
  unfold spawnChildren
  refine foldl_preserve _
    (fun acc2 => acc2.2.f = F ∧ ∀ c ∈ acc2.1, c ∈ acc.1 ∨ ChildOf orc st now b1 c)
    ?_ (List.range numNew) acc ⟨hf, fun c hcm => Or.inl hcm⟩
  intro acc2 a h
  have h1 : acc2.2.f = F := h.1
  simp only [spawnStep]
  by_cases hlen : acc2.1.length < 500
  case neg =>
    simp only [if_neg hlen]
    exact ⟨h1, h.2⟩
  simp only [if_pos hlen]
  constructor
  · exact (mkChild_f _ _ _ _ _ _ _ _ _).trans h1
  · intro c hcm
    rcases List.mem_append.mp hcm with hm | hm
    · exact h.2 c hm
    · rw [List.mem_singleton] at hm
      subst hm
      right
      have h1n : acc2.2.next.2.f = F := h1
      have h1nn : acc2.2.next.2.next.2.f = F := h1
      have h1g : (getRandomColor (b1.generation + 1) st
          acc2.2.next.2.next.2.next.2).2.f = F := by
        rw [getRandomColor_f]; exact h1
      refine ⟨rfl, rfl, rfl, ⟨acc2.2.next.1, ?_, ?_, ?_⟩, ⟨acc2.2.next.2.next.1, ?_, ?_, rfl⟩,
        rfl, ⟨acc2.2.next.2.next.2.next.1, ?_, ?_, rfl⟩, rfl,
        ⟨(getRandomColor (b1.generation + 1) st acc2.2.next.2.next.2.next.2).2.next.1,
          ?_, ?_, rfl⟩, rfl, rfl⟩
      · rw [show acc2.2.next.1 = F acc2.2.k from congrFun h1 acc2.2.k]
        exact (hF _).1
      · rw [show acc2.2.next.1 = F acc2.2.k from congrFun h1 acc2.2.k]
        exact (hF _).2
      · show b1.angle + _ = _
        by_cases hm : st.drawingMode = .organic
        · rw [if_pos hm]
        · rw [if_neg hm]
      · rw [show acc2.2.next.2.next.1 = F acc2.2.next.2.k from congrFun h1n acc2.2.next.2.k]
        exact (hF _).1
      · rw [show acc2.2.next.2.next.1 = F acc2.2.next.2.k from congrFun h1n acc2.2.next.2.k]
        exact (hF _).2
      · rw [show acc2.2.next.2.next.2.next.1 = F acc2.2.next.2.next.2.k from
          congrFun h1nn acc2.2.next.2.next.2.k]
        exact (hF _).1
      · rw [show acc2.2.next.2.next.2.next.1 = F acc2.2.next.2.next.2.k from
          congrFun h1nn acc2.2.next.2.next.2.k]
        exact (hF _).2
      · rw [show (getRandomColor (b1.generation + 1) st acc2.2.next.2.next.2.next.2).2.next.1 =
          F (getRandomColor (b1.generation + 1) st acc2.2.next.2.next.2.next.2).2.k from
          congrFun h1g _]
        exact (hF _).1
      · rw [show (getRandomColor (b1.generation + 1) st acc2.2.next.2.next.2.next.2).2.next.1 =
          F (getRandomColor (b1.generation + 1) st acc2.2.next.2.next.2.next.2).2.k from
          congrFun h1g _]
        exact (hF _).2


lemma animStep_mem (orc : MathOracle) (gs : ℚ) (st : GrowthSettings) (hc : Bool)
    (now : ℚ) (F : ℕ → ℚ) (hF : ∀ k, 0 ≤ F k ∧ F k < 1)
    (acc : List Branch × List GrowthEvent × Rng) (b : Branch) (hf : acc.2.2.f = F) :
    (animStep orc gs st hc now acc b).2.2.f = F ∧
    ∀ c ∈ (animStep orc gs st hc now acc b).1,
      c ∈ acc.1 ∨ UpdatedFrom gs b c ∨ ChildOf orc st now b c := by
  simp only [animStep]
  repeat' split
  all_goals refine ⟨?_, ?_⟩
  all_goals try first
    | exact hf
    | exact (spawnChildren_mem _ _ _ _ _ _ F hF hf).1
  all_goals intro c hcm
  all_goals first
    | (rcases List.mem_append.mp hcm with hm | hm
       · exact Or.inl hm
       · rw [List.mem_singleton] at hm
         subst hm
         refine Or.inr (Or.inl ⟨rfl, rfl, rfl, rfl, rfl, rfl, rfl, rfl, rfl, ?_⟩)
         first | exact Or.inl rfl | exact Or.inr rfl)
    | (rcases List.mem_or_eq_of_mem_set hcm with hm | hm
       · rcases (spawnChildren_mem _ _ _ _ _ _ F hF hf).2 c hm with hm2 | hm2
         · rcases List.mem_append.mp hm2 with hm3 | hm3
           · exact Or.inl hm3
           · rw [List.mem_singleton] at hm3
             subst hm3
             refine Or.inr (Or.inl ⟨rfl, rfl, rfl, rfl, rfl, rfl, rfl, rfl, rfl, ?_⟩)
             first | exact Or.inl rfl | exact Or.inr rfl
         · exact Or.inr (Or.inr hm2)
       · subst hm
         refine Or.inr (Or.inl ⟨rfl, rfl, rfl, rfl, rfl, rfl, rfl, rfl, rfl, ?_⟩)
         first | exact Or.inl rfl | exact Or.inr rfl)

lemma animFold_classify (orc : MathOracle) (gs : ℚ) (st : GrowthSettings) (hc : Bool)
    (now : ℚ) (F : ℕ → ℚ) (hF : ∀ k, 0 ≤ F k ∧ F k < 1) :
    ∀ (l : List Branch) (acc : List Branch × List GrowthEvent × Rng), acc.2.2.f = F →
      (l.foldl (animStep orc gs st hc now) acc).2.2.f = F ∧
      ∀ c ∈ (l.foldl (animStep orc gs st hc now) acc).1,
        c ∈ acc.1 ∨ ∃ b ∈ l, UpdatedFrom gs b c ∨ ChildOf orc st now b c := by
  intro l
  induction l with
  | nil => intro acc hf; exact ⟨hf, fun c hcm => Or.inl hcm⟩
  | cons x xs ih =>
    intro acc hf
    rw [List.foldl_cons]
    have hstep := animStep_mem orc gs st hc now F hF acc x hf
    have hrec := ih (animStep orc gs st hc now acc x) hstep.1
    refine ⟨hrec.1, ?_⟩
    intro c hcm
    rcases hrec.2 c hcm with hm | ⟨b, hbmem, hb⟩
    · rcases hstep.2 c hm with hm2 | hm2
      · exact Or.inl hm2
      · exact Or.inr ⟨x, List.mem_cons_self x xs, hm2⟩
    · exact Or.inr ⟨b, List.mem_cons_of_mem x hbmem, hb⟩

lemma updatedFrom_pulse (orc : MathOracle) (st : GrowthSettings) (pnow gs : ℚ) (b c : Branch)
    (h : UpdatedFrom gs b c) : UpdatedFrom gs b (pulseOne orc st pnow c) := by
  unfold pulseOne
  split
  · exact h
  · exact h

lemma childOf_pulse (orc : MathOracle) (st : GrowthSettings) (pnow now : ℚ) (b c : Branch)
    (h : ChildOf orc st now b c) : pulseOne orc st pnow c = c := by
  unfold pulseOne
  rw [if_neg]
  rintro ⟨hle, -⟩
  obtain ⟨r, hr0, -, hmax⟩ := h.2.2.2.2.2.2.1
  have hp : c.progress = 0 := h.2.2.2.2.2.1
  rw [hmax, hp] at hle
  linarith

/-- Every branch present after one `animateBranches` call is either the
in-place update of one of the (at most 500) processed input branches, or a
child freshly spawned from one of them. -/
lemma animate_classify (orc : MathOracle) (branches : List Branch) (gs : ℚ)
    (st : GrowthSettings) (hc : Bool) (now : ℚ) (g : Rng) (F : ℕ → ℚ)
    (hg : g.f = F) (hF : ∀ k, 0 ≤ F k ∧ F k < 1) :
    ∀ c ∈ (animateBranches orc branches gs st hc now g).1,
      ∃ b ∈ branches.take 500, UpdatedFrom gs b c ∨ ChildOf orc st now b c := by
  intro c hc2
  have hmem : c ∈ (((branches.take 500).foldl (animStep orc gs st hc now)
      (([] : List Branch), ([] : List GrowthEvent), g)).1).map (pulseOne orc st now) := hc2
  rcases List.mem_map.mp hmem with ⟨c0, hc0, rfl⟩
  have h := animFold_classify orc gs st hc now F hF (branches.take 500)
    (([] : List Branch), ([] : List GrowthEvent), g) hg
  rcases h.2 c0 hc0 with hm | ⟨b, hbm, hb⟩
  · exact absurd hm (List.not_mem_nil c0)
  · refine ⟨b, hbm, ?_⟩
    rcases hb with hu | hch
    · exact Or.inl (updatedFrom_pulse orc st now gs b c0 hu)
    · right
      rw [childOf_pulse orc st now now b c0 hch]
      exact hch

lemma seedInner_inv (orc : MathOracle) (now : ℚ) (st : GrowthSettings)
    (lm av sa : ℚ) (pt : Point) (n : ℕ) (F : ℕ → ℚ) (hF0 : ∀ k, 0 ≤ F k)
    (acc : List Branch × Rng) (hf : acc.2.f = F)
    (hmem : ∀ b ∈ acc.1, 0 ≤ b.progress ∧ b.progress ≤ b.maxProgress) :
    (seedInner orc now st lm av sa pt n acc).2.f = F ∧
    ∀ b ∈ (seedInner orc now st lm av sa pt n acc).1,
      0 ≤ b.progress ∧ b.progress ≤ b.maxProgress := by
  unfold seedInner
  refine foldl_preserve _
    (fun acc2 => acc2.2.f = F ∧ ∀ b ∈ acc2.1, 0 ≤ b.progress ∧ b.progress ≤ b.maxProgress)
    ?_ (List.range n) acc ⟨hf, hmem⟩
  intro acc2 a h
  constructor
  · show (mkSeed orc now st lm av sa pt acc2.2).2.f = F
    rw [mkSeed_f]
    exact h.1
  · show ∀ b : Branch, b ∈ acc2.1 ++ [(mkSeed orc now st lm av sa pt acc2.2).1] → 0 ≤ b.progress ∧ b.progress ≤ b.maxProgress
    intro b hb
    rcases List.mem_append.mp hb with hm | hm
    · exact h.2 b hm
    · rw [List.mem_singleton] at hm
      subst hm
      constructor
      · exact le_refl 0
      · show (0 : ℚ) ≤ 60 + acc2.2.next.2.next.2.next.1 * 40
        rw [show acc2.2.next.2.next.2.next.1 = F acc2.2.next.2.next.2.k from
          congrFun (show acc2.2.next.2.next.2.f = F from h.1) _]
        have := hF0 acc2.2.next.2.next.2.k
        linarith

lemma generateBranches_inv (orc : MathOracle) (now : ℚ) (pts : List Point)
    (st : GrowthSettings) (g : Rng) (F : ℕ → ℚ) (hg : g.f = F) (hF0 : ∀ k, 0 ≤ F k) :
    ∀ b ∈ (generateBranches orc now pts st g).1,
      0 ≤ b.progress ∧ b.progress ≤ b.maxProgress := by
  unfold generateBranches
  by_cases hlen : pts.length < 2
  · rw [if_pos hlen]
    intro b hb
    exact absurd hb (List.not_mem_nil b)
  · rw [if_neg hlen]
    refine (foldl_preserve _
      (fun (acc : List Branch × Rng) => acc.2.f = F ∧ ∀ b ∈ acc.1, 0 ≤ b.progress ∧ b.progress ≤ b.maxProgress)
      ?_ _ (([] : List Branch), g) ⟨hg, fun b hb => absurd hb (List.not_mem_nil b)⟩).2
    intro acc2 i h
    exact seedInner_inv orc now st _ _ _ _ _ F hF0 (acc2.1, acc2.2.next.2) h.1 h.2

/-- **C8**: for every branch — right after seeding and after any
`animateBranches` call — `0 ≤ progress ≤ maxProgress` holds (`generation ≥ 0`
holds by the `ℕ` typing of `generation`).  This requires every `Math.random()`
draw to lie in `[0, 1)` and a non-negative `growthSpeed` (the UI slider keeps
it in `[10, 100]`). -/
theorem C8_progress_invariant (orc : MathOracle) (now : ℚ) (pts : List Point)
    (st : GrowthSettings) (g : Rng) (F : ℕ → ℚ) (hg : g.f = F)
    (hF : ∀ k, 0 ≤ F k ∧ F k < 1) (branches : List Branch) (gs : ℚ) (hgs : 0 ≤ gs)
    (hc : Bool)
    (hbr : ∀ b ∈ branches, 0 ≤ b.progress ∧ b.progress ≤ b.maxProgress) :
    (∀ b ∈ (generateBranches orc now pts st g).1,
      0 ≤ b.progress ∧ b.progress ≤ b.maxProgress) ∧
    (∀ c ∈ (animateBranches orc branches gs st hc now g).1,
      0 ≤ c.progress ∧ c.progress ≤ c.maxProgress) := by
  constructor
  · exact generateBranches_inv orc now pts st g F hg (fun k => (hF k).1)
  · intro c hcm
    rcases animate_classify orc branches gs st hc now g F hg hF c hcm with ⟨b, hbm, hu | hch⟩
    · have hb := hbr b (List.mem_of_mem_take hbm)
      obtain ⟨-, -, -, -, -, -, -, hmax, -, hp⟩ := hu
      rcases hp with hp | hp
      · rw [hp, hmax]
        exact hb
      · rw [hp, hmax]
        constructor
        · refine le_min ?_ ?_
          · linarith [hb.1, hb.2]
          · have h50 : (0 : ℚ) ≤ gs / 50 := by positivity
            linarith [hb.1]
        · exact min_le_left _ _
    · obtain ⟨r, hr0, -, hmax⟩ := hch.2.2.2.2.2.2.1
      have hp : c.progress = 0 := hch.2.2.2.2.2.1
      rw [hp, hmax]
      exact ⟨le_refl 0, by linarith⟩

/-- Neural-mode settings with particle effects enabled. -/
def stN : GrowthSettings := ⟨25, "#00E0FF", .neural, true⟩

/-- A fully grown generation-0 parent branch, eligible to spawn. -/
def bC9 : Branch := ⟨100, 100, 110, 100, 0, 10, 0, 60, 60, "#00E0FF", 8/10, 0⟩

/-- The branch seeded by `generateBranches` on a two-point stroke under the
all-zero random stream. -/
def seedB : Branch := ⟨0, 0, 30, 0, 0, 30, 0, 0, 60, "#00E0FF", 8/10, 0⟩

/-- `bC9` after the spawning `animateBranches` call marked it. -/
def pOut : Branch := ⟨100, 100, 110, 100, 0, 10, 0, 60, 60, "#00E0FF", 8/10, 2000⟩

/-- The child spawned from `bC9` under the all-zero random stream. -/
def childB : Branch := ⟨110, 100, 116, 100, 0, 6, 1, 0, 40, "#FF2CFB", 8/10, 2000⟩

lemma genEval :
    (generateBranches orcPhys 0 [(⟨0, 0⟩ : Point), ⟨100, 0⟩] stN rng0).1 = [seedB] := by
  norm_num [generateBranches, seedInner, mkSeed, getRandomColor, seedModeParams, stN, rng0,
    orcPhys, Rng.next, List.range_succ, List.range_zero, min_def, max_def, seedB,
    show Int.toNat 1 = 1 from rfl]

lemma animEval :
    (animateBranches orcPhys [bC9] 50 stN true 2000 rng0).1 = [pOut, childB] := by
  norm_num [animateBranches, animStep, spawnChildren, spawnStep, mkChild, getRandomColor,
    pulseOne, animModeParams, stN, bC9, childB, pOut, rng0, orcPhys, jsMod, jsTrunc,
    Rng.next, List.range_succ, List.range_zero, min_def, max_def,
    show (DrawingMode.neural = DrawingMode.electric) = False from by simp]

/-- Witness for `C8_progress_invariant` at concrete inputs. -/
theorem C8_progress_invariant_witness :
    0 ≤ ((generateBranches orcPhys 0 [(⟨0, 0⟩ : Point), ⟨100, 0⟩] stN rng0).1.getD 0 bC9).progress ∧
    ((generateBranches orcPhys 0 [(⟨0, 0⟩ : Point), ⟨100, 0⟩] stN rng0).1.getD 0 bC9).progress ≤
      ((generateBranches orcPhys 0 [(⟨0, 0⟩ : Point), ⟨100, 0⟩] stN rng0).1.getD 0 bC9).maxProgress :=
  (C8_progress_invariant orcPhys 0 [(⟨0, 0⟩ : Point), ⟨100, 0⟩] stN rng0 (fun _ => 0) rfl
    (fun k => by norm_num) [] 50 (by norm_num) true
    (fun b hb => absurd hb (List.not_mem_nil b))).1
    ((generateBranches orcPhys 0 [(⟨0, 0⟩ : Point), ⟨100, 0⟩] stN rng0).1.getD 0 bC9)
    (by rw [genEval]; exact List.mem_singleton.mpr rfl)

/-- **C9** (amended): every branch after a step is either the in-place update
of a processed input branch or a child of one; a child sits at its parent's
endpoint with `generation + 1`, a random angle offset, a length factor in
`[0.6, 0.9)` and the opacity fade — but its `maxProgress` is `40 + rand·30`
and its `lastGrowth` is `now + rand·1000`, which are NOT the seeding formulas
(`60 + rand·40`, `now + rand·2000`); see `C9_counterexample`. -/
theorem C9_children (orc : MathOracle) (branches : List Branch) (gs : ℚ)
    (st : GrowthSettings) (hc : Bool) (now : ℚ) (g : Rng) (F : ℕ → ℚ)
    (hg : g.f = F) (hF : ∀ k, 0 ≤ F k ∧ F k < 1) :
    ∀ c ∈ (animateBranches orc branches gs st hc now g).1,
      ∃ b ∈ branches.take 500, UpdatedFrom gs b c ∨ ChildOf orc st now b c :=
  animate_classify orc branches gs st hc now g F hg hF

/-- Witness for `C9_children` at concrete inputs. -/
theorem C9_children_witness :
    ∃ b ∈ [bC9].take 500, UpdatedFrom 50 b childB ∨ ChildOf orcPhys stN 2000 b childB :=
  C9_children orcPhys [bC9] 50 stN true 2000 rng0 (fun _ => 0) rfl (fun k => by norm_num)
    childB (by rw [animEval]; exact List.mem_cons_of_mem _ (List.mem_singleton.mpr rfl))

/-- C9 counterexample: a child branch is *not* given "fresh
progress/maxProgress/lastGrowthTime as at seeding".  Under the all-zero
random stream a seeded branch gets `maxProgress = 60` (formula
`60 + rand·40`) while the spawned child gets `maxProgress = 40` (formula
`40 + rand·30`). -/
theorem C9_counterexample :
    (animateBranches orcPhys [bC9] 50 stN true 2000 rng0).1.map Branch.maxProgress =
      [60, 40] ∧
    (generateBranches orcPhys 0 [(⟨0, 0⟩ : Point), ⟨100, 0⟩] stN rng0).1.map
      Branch.maxProgress = [60] ∧
    (40 : ℚ) < 60 := by
  refine ⟨?_, ?_, by norm_num⟩
  · rw [animEval]
    rfl
  · rw [genEval]
    rfl

end NeuroDraw
